import Mathlib

/-!
Shallow embedding of the TS-image estimation engine of
`gammapy/detect/test_statistics.py` and proofs about it.

Modelling conventions:

* Machine floats are modelled by exact rationals extended with a NaN element
  (`Val`).  Every arithmetic operation with a NaN operand yields NaN and every
  ordered comparison involving NaN is false, as in IEEE-754.  Division of a
  finite value by zero (IEEE would yield an infinity) never occurs in any
  statement below; the model maps it to NaN.
* Images are row-major lists of rows of rationals; per-pixel slices are
  flattened row-major lists.
* External numeric routines that the engine calls but whose code is outside
  the repository sources (scipy's `brentq` and `newton` root finders, the
  transcendental logarithm inside the Cash statistic, `numpy.sqrt` on finite
  arguments, and the cython least-squares step `_x_best_leastsq`) are modelled
  as oracle parameters collected in the structure `Oracles`; a root finder that
  raises (fails to bracket or to converge) is an oracle returning `none`.
  Theorems quantify over the oracles, so they hold for every behaviour of the
  external routines; counterexamples instantiate them concretely.
* Python exceptions are modelled with `Except String`; the string is the
  exception class raised by the source at that point.
-/

/-- Fixed flux unit-conversion constant `FLUX_FACTOR = 1e-12` from the source. -/
def FLUX_FACTOR : ℚ := 1 / 10 ^ 12

/-- Iteration cap `MAX_NITER = 20` from the source. -/
def MAX_NITER : Nat := 20

/-- A machine float: a finite value (exact rational) or NaN. -/
inductive Val where
  | nan : Val
  | fin (q : ℚ) : Val
  deriving DecidableEq

namespace Val

/-- Addition with IEEE NaN propagation. -/
def add : Val → Val → Val
  | fin a, fin b => fin (a + b)
  | _, _ => nan

/-- Multiplication with IEEE NaN propagation (also `NaN * 0 = NaN`). -/
def mul : Val → Val → Val
  | fin a, fin b => fin (a * b)
  | _, _ => nan

/-- Subtraction with IEEE NaN propagation. -/
def sub : Val → Val → Val
  | fin a, fin b => fin (a - b)
  | _, _ => nan

/-- Negation with IEEE NaN propagation. -/
def neg : Val → Val
  | fin a => fin (-a)
  | nan => nan

/-- Division with NaN propagation.  A finite value divided by zero is mapped
to NaN; IEEE would produce an infinity there, but no statement in this file
ever divides a finite value by zero. -/
def div : Val → Val → Val
  | fin a, fin b => if b = 0 then nan else fin (a / b)
  | _, _ => nan

instance : Add Val := ⟨add⟩

instance : Mul Val := ⟨mul⟩

instance : Sub Val := ⟨sub⟩

instance : Neg Val := ⟨neg⟩

instance : Div Val := ⟨div⟩

/-- Source `numpy.sign`: sign of a finite value, NaN for NaN. -/
def sign : Val → Val
  | nan => nan
  | fin q => fin (if 0 < q then 1 else if q < 0 then -1 else 0)

/-- Source `numpy.abs`: absolute value, NaN for NaN. -/
def absV : Val → Val
  | nan => nan
  | fin q => fin |q|

/-- Source `numpy.sqrt` built from an abstract square root `sqrtQ` on nonnegative
finite rationals: NaN maps to NaN and a negative finite argument gives NaN. -/
def sqrtV (sqrtQ : ℚ → ℚ) : Val → Val
  | nan => nan
  | fin q => if q < 0 then nan else fin (sqrtQ q)

/-- Strict order test `a < b`; false whenever an operand is NaN. -/
def ltB : Val → Val → Bool
  | fin a, fin b => decide (a < b)
  | _, _ => false

/-- Test `0 < v`; false for NaN. -/
def gtZeroB : Val → Bool
  | fin q => decide (0 < q)
  | nan => false

/-- Test `v < 0`; false for NaN. -/
def isNegB : Val → Bool
  | fin q => decide (q < 0)
  | nan => false

/-- Test `0 < v`; false for NaN. -/
def isPosB : Val → Bool
  | fin q => decide (0 < q)
  | nan => false

/-- Sum of a list of machine floats (NaN absorbs). -/
def sum (l : List Val) : Val := l.foldr add (fin 0)

end Val

/-- A 2D image: row-major list of rows of machine rationals. -/
abbrev Image := List (List ℚ)

/-- A 2D image of machine floats (outputs, which may hold NaN). -/
abbrev ValImage := List (List Val)

/-- Read pixel `(row, col)` of a rational image (0 outside; all reads below
are in bounds). -/
def get2 (a : Image) (p : Nat × Nat) : ℚ := (a.getD p.1 []).getD p.2 0

/-- Read pixel `(row, col)` of a `Val` image (NaN outside; all reads below
are in bounds). -/
def lookupV (img : ValImage) (p : Nat × Nat) : Val :=
  (img.getD p.1 []).getD p.2 Val.nan

/-- Predicate: `a` is a rectangular `H × W` array. -/
def Rect {α : Type} (a : List (List α)) (H W : Nat) : Prop :=
  a.length = H ∧ ∀ row ∈ a, row.length = W

instance {α : Type} (a : List (List α)) (H W : Nat) : Decidable (Rect a H W) := by
  unfold Rect; infer_instance

/-- External numeric routines used by the engine whose code lives outside the
repository sources; each is kept abstract and quantified over.  A root-finder
oracle returning `none` models the scipy call raising (failure to bracket or
to converge within the iteration cap). -/
structure Oracles where
  /-- Per-pixel Cash statistic `2 * (m - c * ln m)` as a function of counts
  `c` and model value `m`; the logarithm is transcendental, so the map is kept
  abstract (`_cash_cython` / `_cash_sum_cython` apply it pixel-wise). -/
  cashC : ℚ → ℚ → ℚ
  /-- Source `numpy.sqrt` on nonnegative finite arguments. -/
  sqrtQ : ℚ → ℚ
  /-- Source `scipy.optimize.brentq` on `_f_cash_root_cython` over the slice data and
  the bracket endpoints, returning the root and the iteration count, or `none`
  when it raises. -/
  brentq : List ℚ → List ℚ → List ℚ → ℚ → ℚ → Option (ℚ × Nat)
  /-- Source `scipy.optimize.newton` on `_f_cash_root_cython`, seeded with a starting
  flux, or `none` when it raises. -/
  newton : List ℚ → List ℚ → List ℚ → ℚ → Option ℚ
  /-- Cython closed-form weighted least-squares step `_x_best_leastsq`. -/
  xBest : List ℚ → List ℚ → List ℚ → List ℚ → ℚ
  /-- Source `scipy.optimize.brentq` on `ts_diff` inside
  `_compute_amplitude_err_profile`, bracketed by the fitted amplitude and
  `amplitude + 1e4`, or `none` when it raises. -/
  profileBrentq : List ℚ → List ℚ → List ℚ → Val → Val → Option ℚ

/-- Per-pixel Cash value of counts `c` against a possibly-NaN model value. -/
def cashV (cashC : ℚ → ℚ → ℚ) (c : ℚ) : Val → Val
  | Val.nan => Val.nan
  | Val.fin m => Val.fin (cashC c m)

/-- Source `f_cash(x, counts, background, model)`: Cash statistic sum of the slice at
amplitude `x`, i.e. `_cash_sum_cython(counts, background + x * FLUX_FACTOR * model)`. -/
def f_cash (cashC : ℚ → ℚ → ℚ) (x : Val) (counts background model : List ℚ) : Val :=
  Val.sum ((counts.zip (background.zip model)).map fun t =>
    cashV cashC t.1 (Val.fin t.2.1 + x * Val.fin (FLUX_FACTOR * t.2.2)))

/-- Modelled from the spec: the cython helper `_amplitude_bounds_cython` is not
under `src/`.  Per the spec it returns an amplitude bracket `(min, max)` plus a
hard floor `min_total`, the floor being derived from requiring
`background + x * FLUX_FACTOR * model >= 0` at every pixel (so
`min_total = -(min of background/model over pixels with model > 0) / FLUX_FACTOR`,
with a large sentinel when no pixel qualifies), and the bracket from the same
requirement restricted to pixels with positive counts together with the total
counts of the slice.  The bracket endpoints are only ever handed to the
external root-finder oracle, so no statement below depends on their exact
values; the floor (third component) is the value the claims are about. -/
def amplitudeBounds (counts background model : List ℚ) : ℚ × ℚ × ℚ :=
  let pix := counts.zip (background.zip model)
  let snAll := (pix.filterMap fun t =>
    if 0 < t.2.2 then some (t.2.1 / t.2.2) else none).foldr min (10 ^ 14)
  let snPos := (pix.filterMap fun t =>
    if 0 < t.2.2 ∧ 0 < t.1 then some (t.2.1 / t.2.2) else none).foldr min (10 ^ 14)
  let sModel := (pix.filterMap fun t =>
    if 0 < t.2.2 then some t.2.2 else none).sum
  let sCounts := (pix.filterMap fun t =>
    if 0 < t.2.2 ∧ 0 < t.1 then some t.1 else none).sum
  (-snPos / FLUX_FACTOR, (sCounts / sModel - snPos) / FLUX_FACTOR, -snAll / FLUX_FACTOR)

/-- Source `_root_amplitude_brentq`: compute bounds; if the slice has no positive
total counts return the floor with 0 iterations, otherwise run the bracketed
root finder, clamping a found root to the floor; when the root finder raises,
record NaN with the iteration cap. -/
def rootAmplitudeBrentq (ext : Oracles) (counts background model : List ℚ) : Val × Nat :=
  let b := amplitudeBounds counts background model
  if ¬ counts.sum > 0 then (Val.fin b.2.2, 0)
  else
    match ext.brentq counts background model b.1 b.2.1 with
    | some rn => (Val.fin (max rn.1 b.2.2), rn.2)
    | none => (Val.nan, MAX_NITER)

/-- Source `_root_amplitude`: Newton root finding from the supplied flux seed.  Note
the source computes no bounds and performs no zero-count short-circuit here;
on success the reported iteration count is 0, on failure NaN with the cap. -/
def rootAmplitude (ext : Oracles) (counts background model : List ℚ) (flux : ℚ) : Val × Nat :=
  match ext.newton counts background model flux with
  | some r => (Val.fin r, 0)
  | none => (Val.nan, MAX_NITER)

/-- The `for i in range(maxiter)` loop of `_leastsq_iter_amplitude`, with the
remaining fuel, the previous estimate `x_old`, the current weights and the
running index.  When the loop ends without converging the source returns
`max(x / FLUX_FACTOR, amplitude_min_total), MAX_NITER` using the last computed
estimate, which equals `x_old` after the final reweighting.  (The relative
change test divides by the current estimate; the source works on machine
floats where a zero estimate gives NaN and the loop continues, while rational
division by zero gives 0 here — no statement below exercises that case.) -/
def leastsqLoop (ext : Oracles) (counts background model : List ℚ) (aminTotal : ℚ) :
    Nat → ℚ → List ℚ → Nat → Val × Nat
  | 0, xold, _weights, _i =>
      (Val.fin (max (xold / FLUX_FACTOR) aminTotal), MAX_NITER)
  | fuel + 1, xold, weights, i =>
      let x := ext.xBest counts background model weights
      if |(x - xold) / x| < 1 / 1000 then
        (Val.fin (max (x / FLUX_FACTOR) aminTotal), i + 1)
      else
        leastsqLoop ext counts background model aminTotal fuel x
          (List.zipWith (fun m b => x * m + b) model background) (i + 1)

/-- Source `_leastsq_iter_amplitude`: zero-count short-circuit to the floor, else the
iterative reweighted least-squares loop starting from uniform weights. -/
def leastsqIterAmplitude (ext : Oracles) (counts background model : List ℚ) : Val × Nat :=
  let b := amplitudeBounds counts background model
  if ¬ counts.sum > 0 then (Val.fin b.2.2, 0)
  else leastsqLoop ext counts background model b.2.2 MAX_NITER 0
    (List.replicate model.length 1) 0

/-- Source `_compute_amplitude_err`: inverse second-derivative error estimate
`sqrt(1 / sum(model^2 * counts / (background + x * FLUX_FACTOR * model)^2))`. -/
def computeAmplitudeErr (sqrtQ : ℚ → ℚ) (x : Val) (counts background model : List ℚ) : Val :=
  let stat := (counts.zip (background.zip model)).map fun t =>
    Val.fin (t.2.2 ^ 2 * t.1) /
      ((Val.fin t.2.1 + x * Val.fin (FLUX_FACTOR * t.2.2)) *
        (Val.fin t.2.1 + x * Val.fin (FLUX_FACTOR * t.2.2)))
  Val.sqrtV sqrtQ (Val.fin 1 / Val.sum stat)

/-- Source `_compute_amplitude_err_profile`: profile-likelihood error via a bracketed
root search on `ts_diff` (modelled by the oracle); the source returns
`result - amplitude`, and NaN when the root search raises. -/
def computeAmplitudeErrProfile (ext : Oracles) (amplitude : Val)
    (counts background model : List ℚ) (c_1 : Val) : Val :=
  match ext.profileBrentq counts background model amplitude c_1 with
  | some r => Val.fin r - amplitude
  | none => Val.nan

/-- Source `_extract_array`: slice of half-width `shape[0] // 2` around `position`,
flattened row-major.  The source uses `shape[0]` for both axis half-widths.
Positions produced by `_get_positions` keep all indices in range; a Python
negative slice index (position nearer the edge than the half-width) is not
modelled. -/
def extractArray (a : Image) (n : Nat) (p : Nat × Nat) : List ℚ :=
  let w := n / 2
  ((a.drop (p.1 - w)).take (2 * w + 1)).flatMap fun row =>
    (row.drop (p.2 - w)).take (2 * w + 1)

/-- The model template `exposure_slice * kernel._array` of `_ts_value`,
flattened row-major. -/
def modelSlice (exposure kernel : Image) (p : Nat × Nat) : List ℚ :=
  List.zipWith (· * ·) (extractArray exposure kernel.length p) kernel.flatten

/-- Amplitude-fitting method (`TSImageEstimator.__init__` rejects any other
string with ValueError at construction time). -/
inductive Method where
  | rootBrentq
  | rootNewton
  | leastsqIter
  deriving DecidableEq

/-- Per-pixel result dict built by `_ts_value` on the non-short-circuited path. -/
structure FitRecord where
  ts : Val
  flux : Val
  niter : Nat
  flux_err : Val
  flux_err_profile : Val
  deriving DecidableEq

/-- What `_ts_value` returns: a bare 3-tuple on the threshold short-circuit,
a dict otherwise. -/
inductive TsReturn where
  | tup (ts flux : Val) (niter : Nat)
  | dict (r : FitRecord)
  deriving DecidableEq

/-- Method dispatch of `_ts_value`.  For `'root newton'` the seed `flux[position]`
is read from the flux image; when `flux` is `None` (which `run` passes for the
other methods) that subscript raises TypeError. -/
def solverResult (ext : Oracles) (position : Nat × Nat)
    (counts_ background_ model : List ℚ) (flux : Option Image) :
    Method → Except String (Val × Nat)
  | Method.rootBrentq => Except.ok (rootAmplitudeBrentq ext counts_ background_ model)
  | Method.rootNewton =>
      match flux with
      | none => Except.error "TypeError: NoneType object is not subscriptable"
      | some f => Except.ok (rootAmplitude ext counts_ background_ model (get2 f position))
  | Method.leastsqIter => Except.ok (leastsqIterAmplitude ext counts_ background_ model)

/-- The result dict assembled by `_ts_value` from the fitted amplitude:
`ts = (c_0 - c_1) * sign(amplitude)`, `flux = amplitude * FLUX_FACTOR`, the
iteration count, and both error estimates. -/
def fitRecordOf (ext : Oracles) (counts_ background_ model : List ℚ) (c_0 : ℚ)
    (amp : Val) (niter : Nat) : FitRecord :=
  let c_1 := f_cash ext.cashC amp counts_ background_ model
  { ts := (Val.fin c_0 - c_1) * Val.sign amp
    flux := amp * Val.fin FLUX_FACTOR
    niter := niter
    flux_err := computeAmplitudeErr ext.sqrtQ amp counts_ background_ model
    flux_err_profile :=
      Val.fin FLUX_FACTOR * computeAmplitudeErrProfile ext amp counts_ background_ model c_1 }

/-- The fitting tail of `_ts_value` (after the optional threshold
short-circuit): dispatch on the method, then build the result dict. -/
def tsValueFit (ext : Oracles) (position : Nat × Nat)
    (counts_ background_ model : List ℚ) (c_0 : ℚ) (flux : Option Image)
    (method : Method) : Except String TsReturn :=
  match solverResult ext position counts_ background_ model flux method with
  | Except.error e => Except.error e
  | Except.ok (amp, niter) =>
      Except.ok (TsReturn.dict (fitRecordOf ext counts_ background_ model c_0 amp niter))

/-- Source `_ts_value`: extract the slices around `position`, sum the local null
statistic, optionally short-circuit on the threshold (reading the seed flux —
a TypeError when `flux` is `None` — and returning a bare tuple), else fit. -/
def tsValue (ext : Oracles) (position : Nat × Nat)
    (counts exposure background c0Image kernel : Image) (flux : Option Image)
    (method : Method) (threshold : Option ℚ) : Except String TsReturn :=
  let counts_ := extractArray counts kernel.length position
  let background_ := extractArray background kernel.length position
  let model := modelSlice exposure kernel position
  let c_0 := (extractArray c0Image kernel.length position).sum
  match threshold with
  | some t =>
      match flux with
      | none => Except.error "TypeError: NoneType object is not subscriptable"
      | some f =>
          let c_1 := f_cash ext.cashC (Val.fin (get2 f position)) counts_ background_ model
          if Val.ltB (Val.fin c_0 - c_1) (Val.fin t) then
            Except.ok (TsReturn.tup (Val.fin c_0 - c_1)
              (Val.fin (get2 f position * FLUX_FACTOR)) 0)
          else tsValueFit ext position counts_ background_ model c_0 flux method
  | none => tsValueFit ext position counts_ background_ model c_0 flux method

/-- Source `TSImageEstimator._get_mask`: pixels with `background == 0` and
`exposure > 0` are an anomaly — their exposure is zeroed in the working
exposure array (a warning is logged; no exception is raised).  The first
component is the corrected exposure array, the second records whether the
warning fired. -/
def getMask (exposure background : Image) : Image × Bool :=
  (List.zipWith (fun erow brow =>
      List.zipWith (fun e b => if b = 0 ∧ 0 < e then 0 else e) erow brow) exposure background,
   (exposure.zip background).any fun rr =>
      (rr.1.zip rr.2).any fun eb => decide (eb.2 = 0 ∧ 0 < eb.1))

/-- The boolean eligibility mask `exposure > 0` (on the corrected exposure). -/
def maskOf (e : Image) : List (List Bool) :=
  e.map fun row => row.map fun q => decide (0 < q)

/-- Row-major grid of candidate coordinates `product(range(y_min, y_max),
range(x_min, x_max))`. -/
def positionsGrid (ymin ymax xmin xmax : Nat) : List (Nat × Nat) :=
  (List.range' ymin (ymax - ymin)).flatMap fun j =>
    (List.range' xmin (xmax - xmin)).map fun i => (j, i)

/-- Source `TSImageEstimator._get_positions`: candidate pixels are the row-major
interior grid (a half-kernel margin on each side) filtered by the mask. -/
def getPositions (mask : List (List Bool)) (kh kw : Nat) : List (Nat × Nat) :=
  let H := mask.length
  let W := (mask.headD []).length
  (positionsGrid (kh / 2) (H - kh / 2) (kw / 2) (W - kw / 2)).filter fun p =>
    (mask.getD p.1 []).getD p.2 false

/-- The body of `TSImageEstimator._estimate_flux` reads the names `counts`,
`background`, `exposure` and `kernel`, none of which is bound in its scope
(the method only receives `images`), so calling it raises NameError before
any computation; the convolution-based seed-flux image is never produced. -/
def estimateFlux : Except String (Option Image) :=
  Except.error "NameError: name counts is not defined"

/-- Indexing a per-pixel result with an output name, as the assembly loop of
`run` does (`_[name] for _ in results`).  A bare tuple (threshold
short-circuit) cannot be indexed by a string: TypeError. -/
def getItem : TsReturn → String → Except String Val
  | TsReturn.tup _ _ _, _ => Except.error "TypeError: tuple indices must be integers"
  | TsReturn.dict r, nm =>
      if nm = "ts" then Except.ok r.ts
      else if nm = "flux" then Except.ok r.flux
      else if nm = "flux_err" then Except.ok r.flux_err
      else if nm = "flux_err_profile" then Except.ok r.flux_err_profile
      else if nm = "niter" then Except.ok (Val.fin r.niter)
      else Except.error "KeyError"

/-- Write one value at one coordinate of an output image (in-bounds numpy
element assignment). -/
def writeAt (img : ValImage) (p : Nat × Nat) (v : Val) : ValImage :=
  img.set p.1 ((img.getD p.1 []).set p.2 v)

/-- The vectorized scatter `result[name].data[j, i] = values`. -/
def writeAll (img : ValImage) (ps : List (Nat × Nat)) (vs : List Val) : ValImage :=
  (ps.zip vs).foldl (fun im pv => writeAt im pv.1 pv.2) img

/-- One name of the assembly loop of `run`: gather the field from every
available per-pixel result (TypeError if one is a bare tuple), then scatter
into the output image; numpy raises when the value list does not match the
number of target coordinates. -/
def writeField (positions : List (Nat × Nat)) (avail : List TsReturn) (nm : String)
    (img : ValImage) : Except String ValImage :=
  Except.bind (avail.mapM fun r => getItem r nm) fun vals =>
    if vals.length = positions.length then Except.ok (writeAll img positions vals)
    else Except.error "ValueError: could not broadcast input array"

/-- Pointwise `sqrt(TS)` of `run`:
`np.where(ts > 0, np.sqrt(ts), -np.sqrt(-ts))`. -/
def sqrtTsPix (sqrtQ : ℚ → ℚ) (ts : Val) : Val :=
  if Val.gtZeroB ts then Val.sqrtV sqrtQ ts else - Val.sqrtV sqrtQ (- ts)

/-- The output image set of `TSImageEstimator.run` (`which = 'all'`). -/
structure RunImages where
  ts : ValImage
  flux : ValImage
  flux_err : ValImage
  flux_err_profile : ValImage
  niter : ValImage
  sqrt_ts : ValImage
  deriving DecidableEq

/-- The working exposure array of `run` after the `_get_mask` anomaly
correction (the same array object the per-pixel workers read). -/
def exposure2Of (exposure background : Image) : Image := (getMask exposure background).1

/-- The global null-statistic image `_cash_cython(counts, background)`. -/
def c0ImageOf (cashC : ℚ → ℚ → ℚ) (counts background : Image) : Image :=
  List.zipWith (List.zipWith cashC) counts background

/-- The candidate position list of `run`: `_get_positions` on the mask of the
corrected exposure, with the kernel shape margins. -/
def runPositions (background exposure kernel : Image) : List (Nat × Nat) :=
  getPositions (maskOf (exposure2Of exposure background)) kernel.length
    ((kernel.headD []).length)

/-- A NaN-filled output image of the counts shape
(`SkyImage.empty_like(images['counts'], fill=np.nan)`). -/
def nanImageOf (counts : Image) : ValImage :=
  counts.map fun row => row.map fun _ => Val.nan

/-- The seed-flux stage of `run`: only the `'root newton'` method computes a
seed flux image (and that computation raises, see `estimateFlux`); the other
methods pass `flux = None` to the per-pixel worker. -/
def runFlux : Method → Except String (Option Image)
  | Method.rootNewton => estimateFlux
  | _ => Except.ok none

/-- The output-assembly stage of `run`.  With `parallel=True`, `pool.map`
produced a list, so all five name loops see every per-pixel result; with
`parallel=False`, `map` produced a one-shot Python-3 iterator which the first
name loop (`'ts'`) exhausts, so the remaining four names iterate an empty
stream.  `sqrt_ts` is derived pointwise from the assembled `ts`. -/
def assembleRun (sqrtQ : ℚ → ℚ) (parallel : Bool) (positions : List (Nat × Nat))
    (results : List TsReturn) (nanImg : ValImage) : Except String RunImages :=
  Except.bind (writeField positions results "ts" nanImg) fun tsImg =>
  Except.bind (writeField positions (cond parallel results []) "flux" nanImg)
    fun fluxImg =>
  Except.bind (writeField positions (cond parallel results [])
      "flux_err" nanImg) fun fluxErrImg =>
  Except.bind (writeField positions (cond parallel results [])
      "flux_err_profile" nanImg) fun fluxErrProfileImg =>
  Except.bind (writeField positions (cond parallel results [])
      "niter" nanImg) fun niterImg =>
  Except.ok ({ ts := tsImg, flux := fluxImg, flux_err := fluxErrImg,
               flux_err_profile := fluxErrProfileImg, niter := niterImg,
               sqrt_ts := tsImg.map fun row => row.map (sqrtTsPix sqrtQ) } : RunImages)

/-- Source `TSImageEstimator.run` with `which = 'all'`.  Faithful points:

* `_parse_image_data` copies the inputs via `astype(float)` and asserts equal
  shapes (AssertionError on mismatch);
* the null-statistic image is `_cash_cython(counts, background)` pixel-wise;
* `_get_mask` zeroes anomalous pixels of the working exposure copy, and the
  corrected exposure is what `_ts_value` later reads;
* the seed flux is computed only for `'root newton'` (`runFlux`);
* per-pixel results are gathered in row-major position order; an exception in
  a worker (or re-raised by `pool.map`) aborts the run;
* `j, i = zip(*positions)` raises ValueError when `positions` is empty;
* output images start as NaN-filled copies of the counts shape and are
  assembled by `assembleRun`. -/
def runEstimator (ext : Oracles) (method : Method) (parallel : Bool)
    (threshold : Option ℚ) (counts background exposure kernel : Image) :
    Except String RunImages :=
  if counts.map List.length = background.map List.length ∧
      counts.map List.length = exposure.map List.length then
    Except.bind (runFlux method) fun flux =>
      Except.bind
        ((runPositions background exposure kernel).mapM fun p =>
          tsValue ext p counts (exposure2Of exposure background) background
            (c0ImageOf ext.cashC counts background) kernel flux method threshold)
        fun results =>
        if (runPositions background exposure kernel).isEmpty then
          Except.error "ValueError: not enough values to unpack"
        else
          assembleRun ext.sqrtQ parallel (runPositions background exposure kernel)
            results (nanImageOf counts)
  else Except.error "AssertionError"

/-- One per-scale result set consumed by `compute_maximum_ts_image`
(attributes `ts`, `niter`, `amplitude`, `scale` of a `SkyImageList`). -/
structure ScaleResult where
  scale : ℚ
  ts : Image
  niter : Image
  amplitude : Image
  deriving DecidableEq

/-- Source `np.max` over the scale axis of the stacked TS images at one pixel
(the stack is nonempty in every use). -/
def maxList : List ℚ → ℚ
  | [] => 0
  | x :: xs => xs.foldl max x

/-- The scale-selection loop of `compute_maximum_ts_image` at one pixel: the
running arrays start at zero and every scale whose TS equals the pixel maximum
overwrites them, so the last attaining scale wins. -/
def selectAtPixel (rs : List ScaleResult) (tsMax : ℚ) (p : Nat × Nat) : ℚ × ℚ × ℚ :=
  rs.foldl (fun acc r =>
    if get2 r.ts p = tsMax then (r.scale, get2 r.niter p, get2 r.amplitude p) else acc)
    (0, 0, 0)

/-- Source `compute_maximum_ts_image`, pixel-wise (the source is the same computation
vectorized over the image): the composite TS is the pixel maximum over scales,
and scale/niter/amplitude come from the selection loop. -/
def computeMaximumTsImage (rs : List ScaleResult) (p : Nat × Nat) : ℚ × ℚ × ℚ × ℚ :=
  let m := maxList (rs.map fun r => get2 r.ts p)
  (m, selectAtPixel rs m p)

/-- A store of caller-owned arrays, used to track aliasing and in-place
mutation; a handle is an index into the store. -/
structure Heap where
  arr : List Image

/-- Read the array behind a handle. -/
def Heap.get (h : Heap) (n : Nat) : Image := h.arr.getD n []

/-- Overwrite the array behind a handle (in-place numpy mutation). -/
def Heap.set (h : Heap) (n : Nat) (v : Image) : Heap := ⟨h.arr.set n v⟩

/-- Allocate a fresh array (numpy operations returning new arrays, such as
`astype`, `pad`, `downsample`). -/
def Heap.alloc (h : Heap) (v : Image) : Heap × Nat := (⟨h.arr ++ [v]⟩, h.arr.length)

/-- Pointwise sum of two images (`a.data += b.data` writes this back into `a`). -/
def add2D (a b : Image) : Image := List.zipWith (List.zipWith (· + ·)) a b

/-- The heap effects of `TSImageEstimator.run` on the caller-owned counts,
background and exposure arrays: `_parse_image_data` copies each via
`astype(float)` (fresh allocations), and `_get_mask` zeroes the anomalous
pixels of the exposure **copy** in place.  The numeric outputs of `run` are
modelled by `runEstimator`; this definition tracks only which arrays the run
writes. -/
def runHeapEffect (h : Heap) (hc hb he : Nat) : Heap :=
  (((h.alloc (h.get hc)).1.alloc (h.get hb)).1.alloc (h.get he)).1.set
    (((h.alloc (h.get hc)).1.alloc (h.get hb)).1.alloc (h.get he)).2
    (getMask (h.get he) (h.get hb)).1

/-- The automatic downsampling factor of `compute_ts_image_multiscale`:
`np.select` over fixed breakpoints on `scale / BINSZ`. -/
def downsampleFactorAuto (binsz scale : ℚ) : Nat :=
  if scale < 5 * binsz then 1
  else if scale < 10 * binsz then 2
  else if scale < 20 * binsz then 4
  else if scale < 40 * binsz then 4
  else 8

/-- The caller-visible array effects of one scale iteration of
`compute_ts_image_multiscale` (Gaussian morphology; the Shell factor halving
and the kernel construction use external astropy/gammapy collaborators that
never touch the caller arrays and carry no array state, so they are omitted
here).  With factor 1 the working image list aliases the caller arrays
(`images2[name] = images[name]`); otherwise `pad` and `downsample` (external
image operations, modelled by the opaque maps `pad` and `ds`) allocate fresh
arrays.  In residual mode `images2['background'].data += images2['model'].data`
mutates the background array in place — the caller's own array when aliased.
The iteration then calls `compute_ts_image`, a name defined nowhere in the
module and never imported, so it raises NameError after the mutation. -/
def multiscaleStep (pad ds : Image → Image) (h : Heap) (hc hb he hm : Nat)
    (factor : Nat) (residual : Bool) : Heap × Except String Unit :=
  if factor = 1 then
    (cond residual (h.set hb (add2D (h.get hb) (h.get hm))) h,
     Except.error "NameError: name compute_ts_image is not defined")
  else
    (cond residual
      (((((h.alloc (ds (pad (h.get hc)))).1.alloc (ds (pad (h.get hb)))).1.alloc
          (ds (pad (h.get he)))).1.alloc (ds (pad (h.get hm)))).1.set
        ((h.alloc (ds (pad (h.get hc)))).1.alloc (ds (pad (h.get hb)))).2
        (add2D
          (((((h.alloc (ds (pad (h.get hc)))).1.alloc (ds (pad (h.get hb)))).1.alloc
              (ds (pad (h.get he)))).1.alloc (ds (pad (h.get hm)))).1.get
            ((h.alloc (ds (pad (h.get hc)))).1.alloc (ds (pad (h.get hb)))).2)
          (((((h.alloc (ds (pad (h.get hc)))).1.alloc (ds (pad (h.get hb)))).1.alloc
              (ds (pad (h.get he)))).1.alloc (ds (pad (h.get hm)))).1.get
            ((((h.alloc (ds (pad (h.get hc)))).1.alloc (ds (pad (h.get hb)))).1.alloc
              (ds (pad (h.get he)))).1.alloc (ds (pad (h.get hm)))).2)))
      ((((h.alloc (ds (pad (h.get hc)))).1.alloc (ds (pad (h.get hb)))).1.alloc
          (ds (pad (h.get he)))).1.alloc (ds (pad (h.get hm)))).1,
     Except.error "NameError: name compute_ts_image is not defined")

/-- Source `compute_ts_image_multiscale` as seen by the caller's arrays: the factor
for the first scale is chosen from the breakpoints (or the explicit override),
then the first scale iteration runs and aborts with NameError at the call to
the undefined `compute_ts_image`, so at most the first iteration's effects
occur. -/
def computeTsImageMultiscale (pad ds : Image → Image) (h : Heap)
    (hc hb he hm : Nat) (binsz : ℚ) (scales : List ℚ) (downsample : Option Nat)
    (residual : Bool) : Heap × Except String Unit :=
  match scales with
  | [] => (h, Except.ok ())
  | scale :: _ =>
      let factor := match downsample with
        | none => downsampleFactorAuto binsz scale
        | some f => f
      multiscaleStep pad ds h hc hb he hm factor residual

/-- Row-major (lexicographic) strict order on pixel coordinates. -/
def lexLt (p q : Nat × Nat) : Prop := p.1 < q.1 ∨ (p.1 = q.1 ∧ p.2 < q.2)

/-- Oracles for runs in which every external root finder raises (fails to
bracket or to converge); the Cash statistic stand-in and square root are
arbitrary concrete maps, nothing below depends on their values. -/
def oraclesFail : Oracles :=
  { cashC := fun c m => 2 * (m - c * m), sqrtQ := id,
    brentq := fun _ _ _ _ _ => none, newton := fun _ _ _ _ => none,
    xBest := fun _ _ _ _ => 0, profileBrentq := fun _ _ _ _ _ => none }

/-- Oracles for runs in which the bracketed root finder converges to the
amplitude 2 after 3 iterations; the Cash statistic stand-in is the zero map
and the other routines are arbitrary concrete maps. -/
def oraclesRoot2 : Oracles :=
  { cashC := fun _ _ => 0, sqrtQ := id,
    brentq := fun _ _ _ _ _ => some (2, 3), newton := fun _ _ _ _ => some 2,
    xBest := fun _ _ _ _ => 2, profileBrentq := fun _ _ _ _ _ => none }

/-- Oracles for runs in which the bracketed root finder converges to the
amplitude 0 (the exact optimum when counts equal background) after 4
iterations; the Cash statistic stand-in is `2 * (m - c * m)`. -/
def oraclesRoot0 : Oracles :=
  { cashC := fun c m => 2 * (m - c * m), sqrtQ := id,
    brentq := fun _ _ _ _ _ => some (0, 4), newton := fun _ _ _ _ => some 0,
    xBest := fun _ _ _ _ => 0, profileBrentq := fun _ _ _ _ _ => none }

/-- The per-pixel result dict of `_ts_value` for `'root brentq'` with no
threshold, as a function of the input images. -/
def brentqRecord (ext : Oracles) (p : Nat × Nat)
    (counts exposure background c0Image kernel : Image) : FitRecord :=
  fitRecordOf ext (extractArray counts kernel.length p)
    (extractArray background kernel.length p) (modelSlice exposure kernel p)
    ((extractArray c0Image kernel.length p).sum)
    (rootAmplitudeBrentq ext (extractArray counts kernel.length p)
      (extractArray background kernel.length p) (modelSlice exposure kernel p)).1
    (rootAmplitudeBrentq ext (extractArray counts kernel.length p)
      (extractArray background kernel.length p) (modelSlice exposure kernel p)).2

/-- The per-pixel result dicts of a `'root brentq'` run with no threshold, in
candidate-position order. -/
def brentqRunRecords (ext : Oracles) (counts background exposure kernel : Image) :
    List FitRecord :=
  (runPositions background exposure kernel).map fun p =>
    brentqRecord ext p counts (exposure2Of exposure background) background
      (c0ImageOf ext.cashC counts background) kernel

/-- The output image set of a completed `'root brentq'` run with no threshold
and `parallel=True`: each field is the NaN-filled image scattered with the
per-pixel records at the candidate positions. -/
def brentqRunOutput (ext : Oracles) (counts background exposure kernel : Image) :
    RunImages :=
  { ts := writeAll (nanImageOf counts) (runPositions background exposure kernel)
      ((brentqRunRecords ext counts background exposure kernel).map FitRecord.ts)
    flux := writeAll (nanImageOf counts) (runPositions background exposure kernel)
      ((brentqRunRecords ext counts background exposure kernel).map FitRecord.flux)
    flux_err := writeAll (nanImageOf counts) (runPositions background exposure kernel)
      ((brentqRunRecords ext counts background exposure kernel).map FitRecord.flux_err)
    flux_err_profile := writeAll (nanImageOf counts)
      (runPositions background exposure kernel)
      ((brentqRunRecords ext counts background exposure kernel).map
        FitRecord.flux_err_profile)
    niter := writeAll (nanImageOf counts) (runPositions background exposure kernel)
      ((brentqRunRecords ext counts background exposure kernel).map fun r =>
        Val.fin r.niter)
    sqrt_ts := (writeAll (nanImageOf counts) (runPositions background exposure kernel)
      ((brentqRunRecords ext counts background exposure kernel).map FitRecord.ts)).map
        fun row => row.map (sqrtTsPix ext.sqrtQ) }

@[simp] theorem Val.fin_add_fin (a b : ℚ) : Val.fin a + Val.fin b = Val.fin (a + b) := rfl

@[simp] theorem Val.nan_add (v : Val) : Val.nan + v = Val.nan := by cases v <;> rfl

@[simp] theorem Val.add_nan (v : Val) : v + Val.nan = Val.nan := by cases v <;> rfl

@[simp] theorem Val.fin_mul_fin (a b : ℚ) : Val.fin a * Val.fin b = Val.fin (a * b) := rfl

@[simp] theorem Val.nan_mul (v : Val) : Val.nan * v = Val.nan := by cases v <;> rfl

@[simp] theorem Val.mul_nan (v : Val) : v * Val.nan = Val.nan := by cases v <;> rfl

@[simp] theorem Val.fin_sub_fin (a b : ℚ) : Val.fin a - Val.fin b = Val.fin (a - b) := rfl

@[simp] theorem Val.nan_sub (v : Val) : Val.nan - v = Val.nan := by cases v <;> rfl

@[simp] theorem Val.sub_nan (v : Val) : v - Val.nan = Val.nan := by cases v <;> rfl

@[simp] theorem Val.neg_fin (a : ℚ) : -(Val.fin a) = Val.fin (-a) := rfl

@[simp] theorem Val.neg_nan : -(Val.nan) = Val.nan := rfl

@[simp] theorem Val.nan_div (v : Val) : Val.nan / v = Val.nan := by cases v <;> rfl

@[simp] theorem Val.div_nan (v : Val) : v / Val.nan = Val.nan := by cases v <;> rfl

@[simp] theorem Val.sign_nan : Val.sign Val.nan = Val.nan := rfl

@[simp] theorem Val.absV_nan : Val.absV Val.nan = Val.nan := rfl

@[simp] theorem Val.sqrtV_nan (sqrtQ : ℚ → ℚ) : Val.sqrtV sqrtQ Val.nan = Val.nan := rfl

@[simp] theorem Val.sum_nil : Val.sum [] = Val.fin 0 := rfl

@[simp] theorem Val.sum_cons (v : Val) (l : List Val) :
    Val.sum (v :: l) = v + Val.sum l := rfl

@[simp] theorem Val.add_def (a b : ℚ) : Val.add (Val.fin a) (Val.fin b) = Val.fin (a + b) := rfl

@[simp] theorem Val.mul_def (a b : ℚ) : Val.mul (Val.fin a) (Val.fin b) = Val.fin (a * b) := rfl

@[simp] theorem Val.sub_def (a b : ℚ) : Val.sub (Val.fin a) (Val.fin b) = Val.fin (a - b) := rfl

@[simp] theorem cashV_nan (cashC : ℚ → ℚ → ℚ) (c : ℚ) : cashV cashC c Val.nan = Val.nan := rfl

@[simp] theorem cashV_fin (cashC : ℚ → ℚ → ℚ) (c m : ℚ) :
    cashV cashC c (Val.fin m) = Val.fin (cashC c m) := rfl

/-- Evaluating the Cash sum at a NaN amplitude over a nonempty slice yields NaN
(IEEE NaN propagation through `background + x * FLUX_FACTOR * model`). -/
theorem f_cash_nan (cashC : ℚ → ℚ → ℚ) (counts background model : List ℚ)
    (hC : counts ≠ []) (hB : background ≠ []) (hM : model ≠ []) :
    f_cash cashC Val.nan counts background model = Val.nan := by
  rcases counts with _ | ⟨c, cs⟩
  · exact absurd rfl hC
  rcases background with _ | ⟨b, bs⟩
  · exact absurd rfl hB
  rcases model with _ | ⟨m, ms⟩
  · exact absurd rfl hM
  simp [f_cash]

/-- The inverse-second-derivative error estimate at a NaN amplitude over a
nonempty slice is NaN. -/
theorem computeAmplitudeErr_nan (sqrtQ : ℚ → ℚ) (counts background model : List ℚ)
    (hC : counts ≠ []) (hB : background ≠ []) (hM : model ≠ []) :
    computeAmplitudeErr sqrtQ Val.nan counts background model = Val.nan := by
  rcases counts with _ | ⟨c, cs⟩
  · exact absurd rfl hC
  rcases background with _ | ⟨b, bs⟩
  · exact absurd rfl hB
  rcases model with _ | ⟨m, ms⟩
  · exact absurd rfl hM
  simp [computeAmplitudeErr]

/-- The profile-likelihood error at a NaN amplitude is NaN for every behaviour
of the external root search (`result - amplitude` propagates the NaN even when
the search returns). -/
theorem computeAmplitudeErrProfile_nan (ext : Oracles) (counts background model : List ℚ)
    (c_1 : Val) :
    computeAmplitudeErrProfile ext Val.nan counts background model c_1 = Val.nan := by
  unfold computeAmplitudeErrProfile
  cases ext.profileBrentq counts background model Val.nan c_1 <;> simp

/-- C10: for every pixel, the derived `sqrt_ts` value
`np.where(ts > 0, sqrt(ts), -sqrt(-ts))` equals `sign(ts) * sqrt(abs(ts))`,
and a NaN `ts` yields a NaN `sqrt_ts`.  The only fact needed about the
abstract square root is `sqrt 0 = 0`. -/
theorem sqrt_ts_identity (sqrtQ : ℚ → ℚ) (h0 : sqrtQ 0 = 0) (ts : Val) :
    sqrtTsPix sqrtQ ts = Val.sign ts * Val.sqrtV sqrtQ (Val.absV ts) ∧
    (ts = Val.nan → sqrtTsPix sqrtQ ts = Val.nan) := by
  constructor
  · cases ts with
    | nan => rfl
    | fin q =>
      rcases lt_trichotomy q 0 with h | h | h
      · have habs : |q| = -q := abs_of_neg h
        have h1 : ¬ (0 : ℚ) < q := not_lt.mpr h.le
        have h2 : ¬ -q < 0 := not_lt.mpr (by linarith)
        simp [sqrtTsPix, Val.gtZeroB, Val.sign, Val.absV, Val.sqrtV, h1, h2, habs,
          not_lt.mpr h.le, h]
      · subst h
        simp [sqrtTsPix, Val.gtZeroB, Val.sign, Val.absV, Val.sqrtV, h0]
      · have habs : |q| = q := abs_of_pos h
        have h2 : ¬ q < 0 := not_lt.mpr h.le
        simp [sqrtTsPix, Val.gtZeroB, Val.sign, Val.absV, Val.sqrtV, h, h2, habs]
  · intro h
    subst h
    rfl

/-- Witness for `sqrt_ts_identity` at the concrete square root `id` and a NaN
TS value. -/
theorem sqrt_ts_identity_witness :
    sqrtTsPix id Val.nan = Val.sign Val.nan * Val.sqrtV id (Val.absV Val.nan) ∧
    (Val.nan = Val.nan → sqrtTsPix id Val.nan = Val.nan) :=
  sqrt_ts_identity id rfl Val.nan

/-- C1 (amended): for the `'root brentq'` and `'leastsq iter'` strategies, a
slice whose counts sum to zero short-circuits to the computed lower bound
`amplitude_min_total` with iteration count 0, for every behaviour of the
external numeric routines.  (The `'root newton'` strategy has no such
short-circuit; see the counterexample.) -/
theorem zero_count_floor (ext : Oracles) (counts background model : List ℚ)
    (h : counts.sum = 0) :
    rootAmplitudeBrentq ext counts background model
      = (Val.fin (amplitudeBounds counts background model).2.2, 0) ∧
    leastsqIterAmplitude ext counts background model
      = (Val.fin (amplitudeBounds counts background model).2.2, 0) := by
  constructor
  · unfold rootAmplitudeBrentq
    rw [h]
    simp
  · unfold leastsqIterAmplitude
    rw [h]
    simp

/-- Witness for `zero_count_floor` on a concrete zero-count slice. -/
theorem zero_count_floor_witness :
    rootAmplitudeBrentq
        { cashC := fun c m => 2 * (m - c * m), sqrtQ := id,
          brentq := fun _ _ _ _ _ => none, newton := fun _ _ _ _ => none,
          xBest := fun _ _ _ _ => 0, profileBrentq := fun _ _ _ _ _ => none }
        [0, 0] [1, 2] [1, 1]
      = (Val.fin (amplitudeBounds [0, 0] [1, 2] [1, 1]).2.2, 0) ∧
    leastsqIterAmplitude
        { cashC := fun c m => 2 * (m - c * m), sqrtQ := id,
          brentq := fun _ _ _ _ _ => none, newton := fun _ _ _ _ => none,
          xBest := fun _ _ _ _ => 0, profileBrentq := fun _ _ _ _ _ => none }
        [0, 0] [1, 2] [1, 1]
      = (Val.fin (amplitudeBounds [0, 0] [1, 2] [1, 1]).2.2, 0) :=
  zero_count_floor _ [0, 0] [1, 2] [1, 1] (by norm_num)

/-- C1 counterexample: on a zero-count slice the `'root newton'` solver
`_root_amplitude` does not return the lower bound with iteration count 0 — it
has no zero-count short-circuit and never consults the bounds.  Here the
Newton search fails (as it must: with zero counts the statistic derivative is
a nonzero constant with no root) and the solver records NaN with the
iteration cap instead. -/
theorem zero_count_newton_counterexample :
    List.sum [(0 : ℚ)] = 0 ∧
    rootAmplitude oraclesFail [0] [1] [1] 0 = (Val.nan, MAX_NITER) ∧
    rootAmplitude oraclesFail [0] [1] [1] 0
      ≠ (Val.fin (amplitudeBounds [0] [1] [1]).2.2, 0) := by
  refine ⟨by norm_num, rfl, ?_⟩
  intro hcontra
  exact Val.noConfusion (congrArg Prod.fst hcontra)

/-- With no threshold configured, `_ts_value` goes straight to the fitting
tail on the extracted slices. -/
theorem tsValue_none (ext : Oracles) (p : Nat × Nat)
    (counts exposure background c0Image kernel : Image) (flux : Option Image)
    (method : Method) :
    tsValue ext p counts exposure background c0Image kernel flux method none
      = tsValueFit ext p (extractArray counts kernel.length p)
          (extractArray background kernel.length p) (modelSlice exposure kernel p)
          ((extractArray c0Image kernel.length p).sum) flux method := rfl

/-- When the method dispatch returns an amplitude, the fitting tail returns
the assembled result dict. -/
theorem tsValueFit_ok (ext : Oracles) (p : Nat × Nat)
    (C B M : List ℚ) (c0 : ℚ) (flux : Option Image) (method : Method)
    (amp : Val) (niter : Nat)
    (h : solverResult ext p C B M flux method = Except.ok (amp, niter)) :
    tsValueFit ext p C B M c0 flux method
      = Except.ok (TsReturn.dict (fitRecordOf ext C B M c0 amp niter)) := by
  unfold tsValueFit
  rw [h]

/-- C4 (amended): on every non-short-circuited pixel the recorded TS equals
`(c_0 - c_1) * sign(amplitude)` with `c_0` the local null-statistic slice sum
and `c_1` the Cash statistic at the fitted amplitude; consequently, whenever
the fitted amplitude is finite and `c_1 < c_0`, the TS is negative exactly
when the amplitude is negative and positive exactly when the amplitude is
positive.  (As stated the claim fails when the fitted amplitude is zero or
`c_0 = c_1` or the fit did not converge: the TS is then zero or NaN, neither
negative nor positive — see the counterexample.) -/
theorem ts_sign_convention (ext : Oracles) (position : Nat × Nat)
    (counts exposure background c0Image kernel : Image) (flux : Option Image)
    (method : Method) (C B M : List ℚ) (c0 : ℚ) (amp : Val) (niter : Nat)
    (hC : C = extractArray counts kernel.length position)
    (hB : B = extractArray background kernel.length position)
    (hM : M = modelSlice exposure kernel position)
    (hc0 : c0 = (extractArray c0Image kernel.length position).sum)
    (hsolve : solverResult ext position C B M flux method = Except.ok (amp, niter)) :
    tsValue ext position counts exposure background c0Image kernel flux method none
      = Except.ok (TsReturn.dict (fitRecordOf ext C B M c0 amp niter)) ∧
    (fitRecordOf ext C B M c0 amp niter).ts
      = (Val.fin c0 - f_cash ext.cashC amp C B M) * Val.sign amp ∧
    (fitRecordOf ext C B M c0 amp niter).niter = niter ∧
    (∀ a c1q, amp = Val.fin a → f_cash ext.cashC amp C B M = Val.fin c1q → c1q < c0 →
      (Val.isNegB (fitRecordOf ext C B M c0 amp niter).ts = true ↔ a < 0) ∧
      (Val.isPosB (fitRecordOf ext C B M c0 amp niter).ts = true ↔ 0 < a)) := by
  subst hC hB hM hc0
  refine ⟨?_, rfl, rfl, ?_⟩
  · rw [tsValue_none]
    exact tsValueFit_ok _ _ _ _ _ _ _ _ _ _ hsolve
  · intro a c1q ha hc1 hlt
    subst ha
    have hd : 0 < (extractArray c0Image kernel.length position).sum - c1q := by linarith
    simp only [fitRecordOf, hc1]
    rcases lt_trichotomy a 0 with h | h | h
    · have hsign : Val.sign (Val.fin a) = Val.fin (-1) := by
        simp [Val.sign, h, not_lt.mpr h.le]
      rw [hsign]
      simp only [Val.fin_sub_fin, Val.fin_mul_fin, Val.isNegB, Val.isPosB,
        decide_eq_true_eq]
      constructor
      · exact ⟨fun _ => h, fun _ => by nlinarith⟩
      · exact ⟨fun hx => by nlinarith, fun hx => by linarith⟩
    · subst h
      have hsign : Val.sign (Val.fin 0) = Val.fin 0 := by simp [Val.sign]
      rw [hsign]
      simp [Val.isNegB, Val.isPosB]
    · have hsign : Val.sign (Val.fin a) = Val.fin 1 := by simp [Val.sign, h]
      rw [hsign]
      simp only [Val.fin_sub_fin, Val.fin_mul_fin, Val.isNegB, Val.isPosB,
        decide_eq_true_eq, mul_one]
      constructor
      · exact ⟨fun hx => by linarith, fun hx => by linarith⟩
      · exact ⟨fun _ => h, fun _ => by linarith⟩

/-- Witness for `ts_sign_convention` on a concrete 1-pixel image where the
fitted amplitude is 2 and the local null statistic is 5: the recorded TS is
positive. -/
theorem ts_sign_convention_witness :
    Val.isPosB (fitRecordOf oraclesRoot2 (extractArray [[3]] 1 (0, 0))
        (extractArray [[2]] 1 (0, 0)) (modelSlice [[4]] [[1]] (0, 0))
        ((extractArray [[5]] 1 (0, 0)).sum) (Val.fin 2) 3).ts = true := by
  have h := ts_sign_convention oraclesRoot2 (0, 0) [[3]] [[4]] [[2]] [[5]] [[1]] none
      Method.rootBrentq (extractArray [[3]] 1 (0, 0)) (extractArray [[2]] 1 (0, 0))
      (modelSlice [[4]] [[1]] (0, 0)) ((extractArray [[5]] 1 (0, 0)).sum)
      (Val.fin 2) 3 rfl rfl rfl rfl
      (congrArg Except.ok (by
        norm_num [rootAmplitudeBrentq, amplitudeBounds, extractArray,
          modelSlice, oraclesRoot2, FLUX_FACTOR, max_def, min_def,
          List.filterMap_cons]))
  have hc1 : f_cash oraclesRoot2.cashC (Val.fin 2) (extractArray [[3]] 1 (0, 0))
      (extractArray [[2]] 1 (0, 0)) (modelSlice [[4]] [[1]] (0, 0)) = Val.fin 0 := by
    norm_num [f_cash, cashV, extractArray, modelSlice, FLUX_FACTOR, oraclesRoot2, Val.sum]
  have hlt : (0 : ℚ) < (extractArray [[5]] 1 (0, 0)).sum := by
    norm_num [extractArray]
  exact (h.2.2.2 2 0 rfl hc1 hlt).2.mpr (by norm_num)

/-- C4 counterexample: on a pixel whose counts (2) exactly equal the
background the fit converges to amplitude 0 (the genuine root of the
statistic derivative there); `sign(0) = 0`, so the recorded TS is 0 — not
positive — while the recorded amplitude (flux) is not negative, refuting "ts
is negative exactly when the converged fitted amplitude is negative and
positive otherwise". -/
theorem ts_zero_amplitude_counterexample :
    ∃ r : FitRecord,
      tsValue oraclesRoot0 (0, 0) [[2]] [[8]] [[2]] [[-4]] [[1]] none
          Method.rootBrentq none
        = Except.ok (TsReturn.dict r) ∧
      Val.isNegB r.flux = false ∧
      r.ts = Val.fin 0 ∧
      Val.isPosB r.ts = false ∧
      Val.isNegB r.ts = false := by
  have hamp : rootAmplitudeBrentq oraclesRoot0 (extractArray [[2]] 1 (0, 0))
      (extractArray [[2]] 1 (0, 0)) (modelSlice [[8]] [[1]] (0, 0)) = (Val.fin 0, 4) := by
    norm_num [rootAmplitudeBrentq, amplitudeBounds, extractArray, modelSlice,
      oraclesRoot0, FLUX_FACTOR, max_def, min_def, List.filterMap_cons]
  refine ⟨fitRecordOf oraclesRoot0 (extractArray [[2]] 1 (0, 0))
      (extractArray [[2]] 1 (0, 0)) (modelSlice [[8]] [[1]] (0, 0))
      ((extractArray [[-4]] 1 (0, 0)).sum) (Val.fin 0) 4, ?_, ?_, ?_, ?_, ?_⟩
  · rw [tsValue_none]
    exact tsValueFit_ok _ _ _ _ _ _ _ _ _ _ (congrArg Except.ok hamp)
  · simp [fitRecordOf, Val.isNegB]
  · norm_num [fitRecordOf, f_cash, cashV, Val.sign, extractArray, modelSlice,
      FLUX_FACTOR, oraclesRoot0, Val.sum]
  · norm_num [fitRecordOf, f_cash, cashV, Val.sign, Val.isPosB, extractArray,
      modelSlice, FLUX_FACTOR, oraclesRoot0, Val.sum]
  · norm_num [fitRecordOf, f_cash, cashV, Val.sign, Val.isNegB, extractArray,
      modelSlice, FLUX_FACTOR, oraclesRoot0, Val.sum]

theorem lexLt_ne {p q : Nat × Nat} (h : lexLt p q) : p ≠ q := by
  rcases h with h | ⟨h1, h2⟩
  · intro hc; subst hc; omega
  · intro hc; subst hc; omega

theorem mem_positionsGrid (ymin ymax xmin xmax : Nat) (p : Nat × Nat) :
    p ∈ positionsGrid ymin ymax xmin xmax ↔
      ymin ≤ p.1 ∧ p.1 < ymax ∧ xmin ≤ p.2 ∧ p.2 < xmax := by
  unfold positionsGrid
  simp only [List.mem_flatMap, List.mem_map, List.mem_range'_1]
  constructor
  · rintro ⟨j, ⟨hj1, hj2⟩, i, ⟨hi1, hi2⟩, rfl⟩
    exact ⟨hj1, by omega, hi1, by omega⟩
  · rintro ⟨h1, h2, h3, h4⟩
    exact ⟨p.1, ⟨h1, by omega⟩, p.2, ⟨h3, by omega⟩, Prod.mk.eta⟩

theorem positionsGrid_pairwise (ymin ymax xmin xmax : Nat) :
    (positionsGrid ymin ymax xmin xmax).Pairwise lexLt := by
  unfold positionsGrid
  rw [List.flatMap_def, List.pairwise_flatten]
  constructor
  · intro l hl
    obtain ⟨j, _, rfl⟩ := List.mem_map.mp hl
    rw [List.pairwise_map]
    exact (List.pairwise_lt_range' xmin (xmax - xmin) 1).imp fun h => Or.inr ⟨rfl, h⟩
  · rw [List.pairwise_map]
    refine (List.pairwise_lt_range' ymin (ymax - ymin) 1).imp ?_
    intro j1 j2 hj x hx y hy
    obtain ⟨i1, _, rfl⟩ := List.mem_map.mp hx
    obtain ⟨i2, _, rfl⟩ := List.mem_map.mp hy
    exact Or.inl hj

theorem mem_getPositions (mask : List (List Bool)) (kh kw : Nat) (p : Nat × Nat) :
    p ∈ getPositions mask kh kw ↔
      kh / 2 ≤ p.1 ∧ p.1 < mask.length - kh / 2 ∧ kw / 2 ≤ p.2 ∧
      p.2 < (mask.headD []).length - kw / 2 ∧
      (mask.getD p.1 []).getD p.2 false = true := by
  unfold getPositions
  simp only [List.mem_filter, mem_positionsGrid]
  tauto

theorem getPositions_pairwise (mask : List (List Bool)) (kh kw : Nat) :
    (getPositions mask kh kw).Pairwise lexLt :=
  (positionsGrid_pairwise _ _ _ _).filter _

theorem getPositions_nodup (mask : List (List Bool)) (kh kw : Nat) :
    (getPositions mask kh kw).Pairwise (fun p q => p ≠ q) :=
  (getPositions_pairwise mask kh kw).imp fun h => lexLt_ne h

theorem lookupV_writeAt_self (img : ValImage) (p : Nat × Nat) (v : Val)
    (h1 : p.1 < img.length) (h2 : p.2 < (img.getD p.1 []).length) :
    lookupV (writeAt img p v) p = v := by
  unfold lookupV writeAt
  simp only [List.getD_eq_getElem?_getD] at h2 ⊢
  rw [List.getElem?_set_self h1]
  simp only [Option.getD_some]
  rw [List.getElem?_set_self h2]
  rfl

theorem lookupV_writeAt_ne (img : ValImage) (p q : Nat × Nat) (v : Val)
    (h : q ≠ p) : lookupV (writeAt img p v) q = lookupV img q := by
  unfold lookupV writeAt
  simp only [List.getD_eq_getElem?_getD]
  rcases eq_or_ne p.1 q.1 with h1 | h1
  · have h2 : p.2 ≠ q.2 := by
      intro hc
      exact h (Prod.ext h1.symm hc.symm)
    rw [List.getElem?_set, if_pos h1]
    rcases Nat.lt_or_ge p.1 img.length with hlt | hge
    · rw [if_pos hlt]
      simp only [Option.getD_some]
      rw [List.getElem?_set_ne h2, h1]
    · rw [if_neg (Nat.not_lt.mpr hge), ← h1, List.getElem?_eq_none hge]
  · rw [List.getElem?_set_ne h1]

theorem writeAt_length (img : ValImage) (p : Nat × Nat) (v : Val) :
    (writeAt img p v).length = img.length := List.length_set _ _ _

theorem writeAt_row_length (img : ValImage) (p : Nat × Nat) (v : Val) (q : Nat) :
    ((writeAt img p v).getD q []).length = (img.getD q []).length := by
  unfold writeAt
  simp only [List.getD_eq_getElem?_getD]
  rcases eq_or_ne p.1 q with h1 | h1
  · subst h1
    rcases Nat.lt_or_ge p.1 img.length with hlt | hge
    · rw [List.getElem?_set_self hlt]
      simp [List.length_set, List.getD_eq_getElem?_getD]
    · rw [List.getElem?_set, if_pos rfl, if_neg (Nat.not_lt.mpr hge),
        List.getElem?_eq_none hge]
  · rw [List.getElem?_set_ne h1]

theorem writeAll_nil_right (img : ValImage) (ps : List (Nat × Nat)) :
    writeAll img ps [] = img := by
  unfold writeAll
  rw [List.zip_nil_right]
  rfl

theorem lookupV_writeAll_not_mem :
    ∀ (ps : List (Nat × Nat)) (vs : List Val) (img : ValImage) (p : Nat × Nat),
      p ∉ ps → lookupV (writeAll img ps vs) p = lookupV img p := by
  intro ps
  induction ps with
  | nil => intro vs img p _; rfl
  | cons a t ih =>
    intro vs img p hp
    rcases vs with _ | ⟨v, vt⟩
    · rfl
    · have hstep : writeAll img (a :: t) (v :: vt) = writeAll (writeAt img a v) t vt := rfl
      rw [hstep, ih vt _ p (fun hc => hp (List.mem_cons_of_mem _ hc)),
        lookupV_writeAt_ne _ _ _ _ (fun hc => hp (by rw [hc]; exact List.mem_cons_self a t))]

theorem lookupV_writeAll_mem :
    ∀ (ps : List (Nat × Nat)) (vs : List Val) (img : ValImage),
      ps.Pairwise (fun p q => p ≠ q) →
      (∀ p ∈ ps, p.1 < img.length ∧ p.2 < (img.getD p.1 []).length) →
      ∀ pv ∈ ps.zip vs, lookupV (writeAll img ps vs) pv.1 = pv.2 := by
  intro ps
  induction ps with
  | nil => intro vs img _ _ pv hpv; simp at hpv
  | cons a t ih =>
    intro vs img hnd hbounds pv hpv
    rcases vs with _ | ⟨v, vt⟩
    · simp at hpv
    · have hstep : writeAll img (a :: t) (v :: vt) = writeAll (writeAt img a v) t vt := rfl
      rw [List.zip_cons_cons, List.mem_cons] at hpv
      rcases hpv with rfl | hpv
      · have hanotint : a ∉ t := by
          intro hc
          exact (List.pairwise_cons.mp hnd).1 a hc rfl
        rw [hstep, lookupV_writeAll_not_mem t vt _ _ hanotint]
        exact lookupV_writeAt_self img a v (hbounds a (List.mem_cons_self a t)).1
          (hbounds a (List.mem_cons_self a t)).2
      · rw [hstep]
        refine ih vt (writeAt img a v) (List.pairwise_cons.mp hnd).2 ?_ pv hpv
        intro q hq
        rw [writeAt_length, writeAt_row_length]
        exact hbounds q (List.mem_cons_of_mem _ hq)

theorem Rect.getD_length {α : Type} {a : List (List α)} {H W : Nat}
    (h : Rect a H W) {j : Nat} (hj : j < H) : (a.getD j []).length = W := by
  have hj' : j < a.length := by rw [h.1]; exact hj
  rw [List.getD_eq_getElem?_getD, List.getElem?_eq_getElem hj']
  exact h.2 _ (List.getElem_mem hj')

theorem get2_zipWith2D (f : ℚ → ℚ → ℚ) (a b : Image) {H W : Nat}
    (ha : Rect a H W) (hb : Rect b H W) {j i : Nat} (hj : j < H) (hi : i < W) :
    get2 (List.zipWith (fun ra rb => List.zipWith f ra rb) a b) (j, i)
      = f (get2 a (j, i)) (get2 b (j, i)) := by
  have hja : j < a.length := by rw [ha.1]; exact hj
  have hjb : j < b.length := by rw [hb.1]; exact hj
  have hia : i < (a[j]).length := by
    rw [ha.2 _ (List.getElem_mem hja)]; exact hi
  have hib : i < (b[j]).length := by
    rw [hb.2 _ (List.getElem_mem hjb)]; exact hi
  unfold get2
  simp only [List.getD_eq_getElem?_getD, List.getElem?_zipWith,
    List.getElem?_eq_getElem hja, List.getElem?_eq_getElem hjb, Option.getD_some,
    List.getElem?_eq_getElem hia, List.getElem?_eq_getElem hib]

theorem getMask_rect (e b : Image) {H W : Nat} (he : Rect e H W) (hb : Rect b H W) :
    Rect (getMask e b).1 H W := by
  constructor
  · simp [getMask, List.length_zipWith, he.1, hb.1]
  · intro row hrow
    simp only [getMask] at hrow
    obtain ⟨k, hk, hrow'⟩ := List.mem_iff_getElem.mp hrow
    rw [List.length_zipWith, he.1, hb.1, min_self] at hk
    have hka : k < e.length := by rw [he.1]; exact hk
    have hkb : k < b.length := by rw [hb.1]; exact hk
    rw [← hrow', List.getElem_zipWith, List.length_zipWith,
      he.2 _ (List.getElem_mem hka), hb.2 _ (List.getElem_mem hkb), min_self]

theorem getMask_get2 (e b : Image) {H W : Nat} (he : Rect e H W) (hb : Rect b H W)
    {j i : Nat} (hj : j < H) (hi : i < W) :
    get2 (getMask e b).1 (j, i)
      = if get2 b (j, i) = 0 ∧ 0 < get2 e (j, i) then 0 else get2 e (j, i) :=
  get2_zipWith2D _ e b he hb hj hi

theorem getMask_length (e b : Image) {H W : Nat} (he : Rect e H W) (hb : Rect b H W) :
    (getMask e b).1.length = H := (getMask_rect e b he hb).1

theorem maskOf_length (a : Image) : (maskOf a).length = a.length := List.length_map _ _

theorem maskOf_getD (a : Image) {H W : Nat} (h : Rect a H W) {j i : Nat}
    (hj : j < H) (hi : i < W) :
    ((maskOf a).getD j []).getD i false = decide (0 < get2 a (j, i)) := by
  have hj' : j < a.length := by rw [h.1]; exact hj
  have hi' : i < (a[j]).length := by
    rw [h.2 _ (List.getElem_mem hj')]; exact hi
  unfold maskOf get2
  simp only [List.getD_eq_getElem?_getD, List.getElem?_map,
    List.getElem?_eq_getElem hj', Option.map_some', Option.getD_some,
    List.getElem?_eq_getElem hi']

theorem maskOf_headD_length (a : Image) {H W : Nat} (h : Rect a H W) (hH : 0 < H) :
    ((maskOf a).headD []).length = W := by
  rcases a with _ | ⟨r, t⟩
  · have : (0 : Nat) = H := h.1
    omega
  · simpa [maskOf] using h.2 r (List.mem_cons_self r t)

theorem get2_eq (a : Image) {j i : Nat}
    (hja : j < a.length) (hia : i < (a[j]).length) :
    get2 a (j, i) = (a[j])[i] := by
  unfold get2
  simp only [List.getD_eq_getElem?_getD, List.getElem?_eq_getElem hja,
    Option.getD_some, List.getElem?_eq_getElem hia]

theorem getMask_warned (e b : Image) {H W : Nat} (he : Rect e H W) (hb : Rect b H W) :
    (getMask e b).2 = true ↔
      ∃ j i, j < H ∧ i < W ∧ get2 b (j, i) = 0 ∧ 0 < get2 e (j, i) := by
  unfold getMask
  simp only [List.any_eq_true, decide_eq_true_eq]
  constructor
  · rintro ⟨rr, hrr, eb, heb, hcond⟩
    obtain ⟨k, hk', hreq⟩ := List.mem_iff_getElem.mp hrr
    have hk : k < H := by
      rw [List.length_zip, he.1, hb.1, min_self] at hk'
      exact hk'
    have hka : k < e.length := by rw [he.1]; exact hk
    have hkb : k < b.length := by rw [hb.1]; exact hk
    rw [List.getElem_zip] at hreq
    subst hreq
    dsimp only at heb hcond
    obtain ⟨l, hl', hleq⟩ := List.mem_iff_getElem.mp heb
    rw [List.getElem_zip] at hleq
    subst hleq
    dsimp only at hcond
    rw [List.length_zip, he.2 _ (List.getElem_mem hka),
      hb.2 _ (List.getElem_mem hkb), min_self] at hl'
    have hla : l < (e[k]).length := by
      rw [he.2 _ (List.getElem_mem hka)]; exact hl'
    have hlb : l < (b[k]).length := by
      rw [hb.2 _ (List.getElem_mem hkb)]; exact hl'
    refine ⟨k, l, hk, hl', ?_, ?_⟩
    · rw [get2_eq b hkb hlb]
      exact hcond.1
    · rw [get2_eq e hka hla]
      exact hcond.2
  · rintro ⟨j, i, hj, hi, hzero, hpos⟩
    have hja : j < e.length := by rw [he.1]; exact hj
    have hjb : j < b.length := by rw [hb.1]; exact hj
    have hia : i < (e[j]).length := by
      rw [he.2 _ (List.getElem_mem hja)]; exact hi
    have hib : i < (b[j]).length := by
      rw [hb.2 _ (List.getElem_mem hjb)]; exact hi
    have hjz : j < (e.zip b).length := by
      rw [List.length_zip, he.1, hb.1, min_self]; exact hj
    refine ⟨(e.zip b)[j], List.getElem_mem hjz, ?_⟩
    rw [List.getElem_zip]
    have hiz : i < ((e[j]).zip (b[j])).length := by
      rw [List.length_zip]
      exact lt_min hia hib
    refine ⟨((e[j]).zip (b[j]))[i], List.getElem_mem hiz, ?_⟩
    rw [List.getElem_zip]
    rw [get2_eq b hjb hib] at hzero
    rw [get2_eq e hja hia] at hpos
    exact ⟨hzero, hpos⟩

theorem mem_getPositions_exposure (exposure background : Image) (kh kw H W : Nat)
    (hE : Rect exposure H W) (hB : Rect background H W) (p : Nat × Nat) :
    p ∈ getPositions (maskOf (getMask exposure background).1) kh kw ↔
      (kh / 2 ≤ p.1 ∧ p.1 < H - kh / 2 ∧ kw / 2 ≤ p.2 ∧ p.2 < W - kw / 2 ∧
       0 < get2 (getMask exposure background).1 p) := by
  have hrect := getMask_rect exposure background hE hB
  rw [mem_getPositions, maskOf_length, hrect.1]
  rcases Nat.eq_zero_or_pos H with hH | hH
  · subst hH
    constructor
    · rintro ⟨_, h2, _⟩
      omega
    · rintro ⟨_, h2, _⟩
      omega
  · rw [maskOf_headD_length _ hrect hH]
    constructor
    · rintro ⟨h1, h2, h3, h4, h5⟩
      have hj : p.1 < H := lt_of_lt_of_le h2 (Nat.sub_le _ _)
      have hi : p.2 < W := lt_of_lt_of_le h4 (Nat.sub_le _ _)
      rw [maskOf_getD _ hrect hj hi] at h5
      exact ⟨h1, h2, h3, h4, of_decide_eq_true h5⟩
    · rintro ⟨h1, h2, h3, h4, h5⟩
      have hj : p.1 < H := lt_of_lt_of_le h2 (Nat.sub_le _ _)
      have hi : p.2 < W := lt_of_lt_of_le h4 (Nat.sub_le _ _)
      refine ⟨h1, h2, h3, h4, ?_⟩
      rw [maskOf_getD _ hrect hj hi]
      exact decide_eq_true h5

/-- C7: on rectangular same-shape inputs, `_get_mask` zeroes in the working
exposure array exactly the pixels with zero background but positive exposure
(surfacing a warning exactly when such a pixel exists — the function is total,
it never raises), and `_get_positions` returns exactly the pixels whose
corrected exposure is positive and which lie a half-kernel margin inside the
image, in row-major order (strictly increasing lexicographic coordinates). -/
theorem mask_positions_spec (exposure background : Image) (kh kw H W : Nat)
    (hE : Rect exposure H W) (hB : Rect background H W) :
    (∀ j i, j < H → i < W →
      get2 (getMask exposure background).1 (j, i)
        = if get2 background (j, i) = 0 ∧ 0 < get2 exposure (j, i) then 0
          else get2 exposure (j, i)) ∧
    ((getMask exposure background).2 = true ↔
      ∃ j i, j < H ∧ i < W ∧ get2 background (j, i) = 0 ∧ 0 < get2 exposure (j, i)) ∧
    (∀ p : Nat × Nat,
      p ∈ getPositions (maskOf (getMask exposure background).1) kh kw ↔
        (kh / 2 ≤ p.1 ∧ p.1 < H - kh / 2 ∧ kw / 2 ≤ p.2 ∧ p.2 < W - kw / 2 ∧
         0 < get2 (getMask exposure background).1 p)) ∧
    (getPositions (maskOf (getMask exposure background).1) kh kw).Pairwise lexLt :=
  ⟨fun j i hj hi => getMask_get2 exposure background hE hB hj hi,
   getMask_warned exposure background hE hB,
   mem_getPositions_exposure exposure background kh kw H W hE hB,
   getPositions_pairwise _ _ _⟩

/-- Witness for `mask_positions_spec` on a 1 x 2 image whose first pixel is
the background-zero anomaly: that pixel is zeroed and excluded, the warning
fires, and the second pixel is the sole candidate. -/
theorem mask_positions_spec_witness :
    (0, 1) ∈ getPositions (maskOf (getMask [[2, 3]] [[0, 1]]).1) 1 1 ∧
    get2 (getMask [[2, 3]] [[0, 1]]).1 (0, 0) = 0 ∧
    (getMask [[2, 3]] [[0, 1]]).2 = true := by
  have h := mask_positions_spec [[2, 3]] [[0, 1]] 1 1 1 2 (by decide) (by decide)
  refine ⟨?_, ?_, ?_⟩
  · exact (h.2.2.1 (0, 1)).mpr (by decide)
  · rw [h.1 0 0 (by decide) (by decide)]
    decide
  · exact h.2.1.mpr ⟨0, 0, by decide, by decide, by decide, by decide⟩

theorem exceptBind_ok {α β : Type} (v : α) (f : α → Except String β) :
    Except.bind (Except.ok v) f = f v := rfl

theorem exceptBind_error {α β : Type} (e : String) (f : α → Except String β) :
    Except.bind (Except.error e : Except String α) f = Except.error e := rfl

theorem tsValue_brentq_ok (ext : Oracles) (p : Nat × Nat)
    (counts exposure background c0Image kernel : Image) (flux : Option Image) :
    tsValue ext p counts exposure background c0Image kernel flux Method.rootBrentq none
      = Except.ok (TsReturn.dict
          (brentqRecord ext p counts exposure background c0Image kernel)) := by
  rw [tsValue_none]
  refine tsValueFit_ok _ _ _ _ _ _ _ _ _ _ ?_
  rw [Prod.mk.eta]
  rfl

theorem mapM_ok_of_forall {α β : Type} (f : α → Except String β) (g : α → β) :
    ∀ l : List α, (∀ a ∈ l, f a = Except.ok (g a)) → l.mapM f = Except.ok (l.map g) := by
  intro l
  induction l with
  | nil => intro _; rfl
  | cons a t ih =>
    intro h
    rw [List.mapM_cons, h a (List.mem_cons_self a t),
      ih fun b hb => h b (List.mem_cons_of_mem _ hb)]
    rfl

theorem mapM_error_of_head {α β : Type} (f : α → Except String β) (a : α) (t : List α)
    (e : String) (h : f a = Except.error e) : (a :: t).mapM f = Except.error e := by
  rw [List.mapM_cons, h]
  rfl

theorem getItem_dict_ts (r : FitRecord) :
    getItem (TsReturn.dict r) "ts" = Except.ok r.ts := rfl

theorem getItem_dict_flux (r : FitRecord) :
    getItem (TsReturn.dict r) "flux" = Except.ok r.flux := rfl

theorem getItem_dict_flux_err (r : FitRecord) :
    getItem (TsReturn.dict r) "flux_err" = Except.ok r.flux_err := rfl

theorem getItem_dict_flux_err_profile (r : FitRecord) :
    getItem (TsReturn.dict r) "flux_err_profile" = Except.ok r.flux_err_profile := rfl

theorem getItem_dict_niter (r : FitRecord) :
    getItem (TsReturn.dict r) "niter" = Except.ok (Val.fin r.niter) := rfl

theorem writeField_dicts (positions : List (Nat × Nat)) (recs : List FitRecord)
    (nm : String) (g : FitRecord → Val) (img : ValImage)
    (hnm : ∀ r : FitRecord, getItem (TsReturn.dict r) nm = Except.ok (g r))
    (hlen : recs.length = positions.length) :
    writeField positions (recs.map TsReturn.dict) nm img
      = Except.ok (writeAll img positions (recs.map g)) := by
  unfold writeField
  have hmapped : (recs.map TsReturn.dict).mapM (fun r => getItem r nm)
      = Except.ok ((recs.map TsReturn.dict).map fun tr =>
          match tr with
          | TsReturn.dict r => g r
          | TsReturn.tup a _ _ => a) := by
    apply mapM_ok_of_forall
    intro a ha
    obtain ⟨r, _, rfl⟩ := List.mem_map.mp ha
    exact hnm r
  rw [hmapped, exceptBind_ok]
  rw [List.map_map]
  rw [if_pos (by rw [List.length_map]; exact hlen)]
  rfl

theorem writeField_nil_avail (positions : List (Nat × Nat)) (nm : String)
    (img : ValImage) (hpos : positions ≠ []) :
    writeField positions [] nm img
      = Except.error "ValueError: could not broadcast input array" := by
  unfold writeField
  rw [show (([] : List TsReturn).mapM fun r => getItem r nm)
      = Except.ok ([] : List Val) from rfl, exceptBind_ok]
  rw [if_neg]
  intro hc
  exact hpos (List.length_eq_zero.mp hc.symm)

theorem runEstimator_brentq_eq (ext : Oracles) (parallel : Bool)
    (threshold : Option ℚ) (counts background exposure kernel : Image)
    (hsh : counts.map List.length = background.map List.length ∧
      counts.map List.length = exposure.map List.length) :
    runEstimator ext Method.rootBrentq parallel threshold counts background exposure kernel
      = Except.bind
          ((runPositions background exposure kernel).mapM fun p =>
            tsValue ext p counts (exposure2Of exposure background) background
              (c0ImageOf ext.cashC counts background) kernel none
              Method.rootBrentq threshold) fun results =>
          if (runPositions background exposure kernel).isEmpty then
            Except.error "ValueError: not enough values to unpack"
          else
            assembleRun ext.sqrtQ parallel (runPositions background exposure kernel)
              results (nanImageOf counts) := by
  unfold runEstimator
  rw [if_pos hsh]
  rfl

/-- With `'root newton'`, `run` aborts with the NameError raised inside
`_estimate_flux` (its body reads names absent from its scope). -/
theorem run_newton_name_error (ext : Oracles) (parallel : Bool)
    (threshold : Option ℚ) (counts background exposure kernel : Image)
    (hsh : counts.map List.length = background.map List.length ∧
      counts.map List.length = exposure.map List.length) :
    runEstimator ext Method.rootNewton parallel threshold counts background exposure kernel
      = Except.error "NameError: name counts is not defined" := by
  unfold runEstimator
  rw [if_pos hsh]
  rfl

theorem tsValue_threshold_flux_none (ext : Oracles) (p : Nat × Nat)
    (counts exposure background c0Image kernel : Image) (method : Method) (t : ℚ) :
    tsValue ext p counts exposure background c0Image kernel none method (some t)
      = Except.error "TypeError: NoneType object is not subscriptable" := rfl

/-- With a threshold configured and a method other than `'root newton'`,
`run` passes `flux = None` to the per-pixel worker, whose threshold check
subscripts it: the first candidate pixel raises TypeError and the run aborts. -/
theorem run_threshold_typeerror (ext : Oracles) (parallel : Bool) (t : ℚ)
    (counts background exposure kernel : Image)
    (hsh : counts.map List.length = background.map List.length ∧
      counts.map List.length = exposure.map List.length)
    (hpos : runPositions background exposure kernel ≠ []) :
    runEstimator ext Method.rootBrentq parallel (some t) counts background exposure kernel
      = Except.error "TypeError: NoneType object is not subscriptable" := by
  obtain ⟨p, ps, hcons⟩ := List.exists_cons_of_ne_nil hpos
  rw [runEstimator_brentq_eq ext parallel (some t) counts background exposure kernel hsh,
    hcons,
    mapM_error_of_head _ p ps _ (tsValue_threshold_flux_none ext p counts
      (exposure2Of exposure background) background
      (c0ImageOf ext.cashC counts background) kernel Method.rootBrentq t)]
  rfl

/-- A `'root brentq'` run with no threshold and `parallel=True` completes and
returns the assembled output, whatever the oracles do at each pixel. -/
theorem run_brentq_parallel_ok (ext : Oracles)
    (counts background exposure kernel : Image)
    (hsh : counts.map List.length = background.map List.length ∧
      counts.map List.length = exposure.map List.length)
    (hpos : runPositions background exposure kernel ≠ []) :
    runEstimator ext Method.rootBrentq true none counts background exposure kernel
      = Except.ok (brentqRunOutput ext counts background exposure kernel) := by
  rw [runEstimator_brentq_eq ext true none counts background exposure kernel hsh]
  rw [mapM_ok_of_forall _
    (fun p => TsReturn.dict (brentqRecord ext p counts (exposure2Of exposure background)
      background (c0ImageOf ext.cashC counts background) kernel)) _
    (fun p _ => tsValue_brentq_ok ext p counts (exposure2Of exposure background)
      background (c0ImageOf ext.cashC counts background) kernel none)]
  rw [exceptBind_ok]
  rw [if_neg fun hc => hpos (List.isEmpty_iff.mp hc)]
  unfold assembleRun
  rw [show ((runPositions background exposure kernel).map fun p =>
      TsReturn.dict (brentqRecord ext p counts (exposure2Of exposure background)
        background (c0ImageOf ext.cashC counts background) kernel))
      = (brentqRunRecords ext counts background exposure kernel).map TsReturn.dict by
    unfold brentqRunRecords
    rw [List.map_map]
    rfl]
  rw [Bool.cond_true]
  rw [writeField_dicts _ _ "ts" FitRecord.ts _ getItem_dict_ts
    (by unfold brentqRunRecords; rw [List.length_map]), exceptBind_ok]
  rw [writeField_dicts _ _ "flux" FitRecord.flux _ getItem_dict_flux
    (by unfold brentqRunRecords; rw [List.length_map]), exceptBind_ok]
  rw [writeField_dicts _ _ "flux_err" FitRecord.flux_err _ getItem_dict_flux_err
    (by unfold brentqRunRecords; rw [List.length_map]), exceptBind_ok]
  rw [writeField_dicts _ _ "flux_err_profile" FitRecord.flux_err_profile _
    getItem_dict_flux_err_profile
    (by unfold brentqRunRecords; rw [List.length_map]), exceptBind_ok]
  rw [writeField_dicts _ _ "niter" (fun r => Val.fin r.niter) _ getItem_dict_niter
    (by unfold brentqRunRecords; rw [List.length_map]), exceptBind_ok]
  rfl

/-- A `'root brentq'` run with no threshold and `parallel=False` always
aborts: the serial `map` iterator is exhausted by the first assembly loop, so
the second loop scatters an empty list over the candidate positions. -/
theorem run_serial_broadcast_error (ext : Oracles)
    (counts background exposure kernel : Image)
    (hsh : counts.map List.length = background.map List.length ∧
      counts.map List.length = exposure.map List.length)
    (hpos : runPositions background exposure kernel ≠ []) :
    runEstimator ext Method.rootBrentq false none counts background exposure kernel
      = Except.error "ValueError: could not broadcast input array" := by
  rw [runEstimator_brentq_eq ext false none counts background exposure kernel hsh]
  rw [mapM_ok_of_forall _
    (fun p => TsReturn.dict (brentqRecord ext p counts (exposure2Of exposure background)
      background (c0ImageOf ext.cashC counts background) kernel)) _
    (fun p _ => tsValue_brentq_ok ext p counts (exposure2Of exposure background)
      background (c0ImageOf ext.cashC counts background) kernel none)]
  rw [exceptBind_ok]
  rw [if_neg fun hc => hpos (List.isEmpty_iff.mp hc)]
  unfold assembleRun
  rw [show ((runPositions background exposure kernel).map fun p =>
      TsReturn.dict (brentqRecord ext p counts (exposure2Of exposure background)
        background (c0ImageOf ext.cashC counts background) kernel))
      = (brentqRunRecords ext counts background exposure kernel).map TsReturn.dict by
    unfold brentqRunRecords
    rw [List.map_map]
    rfl]
  rw [writeField_dicts _ _ "ts" FitRecord.ts _ getItem_dict_ts
    (by unfold brentqRunRecords; rw [List.length_map]), exceptBind_ok]
  rw [Bool.cond_false]
  rw [writeField_nil_avail _ "flux" _ hpos]
  rfl

theorem nanImageOf_rect {counts : Image} {H W : Nat} (h : Rect counts H W) :
    Rect (nanImageOf counts) H W := by
  constructor
  · simp [nanImageOf, h.1]
  · intro row hrow
    obtain ⟨r, hr, rfl⟩ := List.mem_map.mp (by simpa [nanImageOf] using hrow)
    simp [h.2 r hr]

theorem rect_map_length {α : Type} {a : List (List α)} {H W : Nat}
    (h : Rect a H W) : a.map List.length = List.replicate H W := by
  apply List.eq_replicate_iff.mpr
  constructor
  · simp [h.1]
  · intro x hx
    obtain ⟨row, hrow, rfl⟩ := List.mem_map.mp hx
    exact h.2 row hrow

theorem lookup_writeAll_map (positions : List (Nat × Nat)) (gg : Nat × Nat → Val)
    (img : ValImage) (hnd : positions.Pairwise fun p q => p ≠ q)
    (hbounds : ∀ q ∈ positions, q.1 < img.length ∧ q.2 < (img.getD q.1 []).length)
    (p : Nat × Nat) (hp : p ∈ positions) :
    lookupV (writeAll img positions (positions.map gg)) p = gg p := by
  have hzip : ∀ l : List (Nat × Nat), l.zip (l.map gg) = l.map fun q => (q, gg q) := by
    intro l
    induction l with
    | nil => rfl
    | cons a t ih => simp [ih]
  exact lookupV_writeAll_mem positions (positions.map gg) img hnd hbounds (p, gg p)
    (by rw [hzip]; exact List.mem_map_of_mem _ hp)

/-- C5 (code-bug evidence): with the `'root newton'` method, `run` never
computes the documented seed-flux image — `_estimate_flux` reads the names
`counts`, `background`, `exposure` and `kernel`, none of which is bound in
its scope, so every such run aborts with NameError before any per-pixel
work. -/
theorem newton_seed_flux_name_error (ext : Oracles) (parallel : Bool)
    (threshold : Option ℚ) (counts background exposure kernel : Image)
    (hsh : counts.map List.length = background.map List.length ∧
      counts.map List.length = exposure.map List.length) :
    runEstimator ext Method.rootNewton parallel threshold counts background exposure kernel
      = Except.error "NameError: name counts is not defined" := by
  unfold runEstimator
  rw [if_pos hsh]
  rfl

/-- Witness for `newton_seed_flux_name_error` on a concrete 1-pixel run. -/
theorem newton_seed_flux_name_error_witness :
    runEstimator oraclesFail Method.rootNewton true none [[3]] [[2]] [[4]] [[1]]
      = Except.error "NameError: name counts is not defined" :=
  newton_seed_flux_name_error oraclesFail true none [[3]] [[2]] [[4]] [[1]] (by decide)

/-- C2 (code-bug evidence): with a threshold configured the run aborts
instead of recording the short-circuit values.  For any method other than
`'root newton'`, `run` passes `flux = None` and the threshold check
subscripts it — TypeError at the first candidate pixel (first conjunct, a
whole concrete run).  Even where a seed flux is available, the short-circuit
returns a bare 3-tuple where the assembly loop expects a dict: indexing it
with the output name raises TypeError (second and third conjuncts). -/
theorem threshold_short_circuit_aborts :
    runEstimator oraclesRoot2 Method.rootBrentq true (some 10) [[3]] [[2]] [[4]] [[1]]
      = Except.error "TypeError: NoneType object is not subscriptable" ∧
    tsValue oraclesRoot2 (0, 0) [[3]] [[4]] [[2]] [[5]] [[1]] (some [[7]])
        Method.rootNewton (some 1000)
      = Except.ok (TsReturn.tup (Val.fin 5) (Val.fin (7 * FLUX_FACTOR)) 0) ∧
    getItem (TsReturn.tup (Val.fin 5) (Val.fin (7 * FLUX_FACTOR)) 0) "ts"
      = Except.error "TypeError: tuple indices must be integers" := by
  refine ⟨run_threshold_typeerror oraclesRoot2 true 10 [[3]] [[2]] [[4]] [[1]]
    (by decide) (by decide), ?_, rfl⟩
  norm_num [tsValue, f_cash, cashV, extractArray, modelSlice, get2, oraclesRoot2,
    Val.sum, Val.ltB]

/-- C3 (code-bug evidence): on identical inputs a `parallel=True` run
completes while the `parallel=False` run aborts — under Python 3 the serial
branch binds `results` to a one-shot `map` iterator that the first of the
five assembly loops exhausts, so the `'flux'` loop scatters an empty list
over the candidate positions and numpy raises; `pool.map` in the parallel
branch returns a reusable list.  The two execution modes are therefore not
equivalent. -/
theorem parallel_serial_divergence :
    runEstimator oraclesFail Method.rootBrentq true none [[3]] [[2]] [[4]] [[1]]
      = Except.ok (brentqRunOutput oraclesFail [[3]] [[2]] [[4]] [[1]]) ∧
    runEstimator oraclesFail Method.rootBrentq false none [[3]] [[2]] [[4]] [[1]]
      = Except.error "ValueError: could not broadcast input array" ∧
    runEstimator oraclesFail Method.rootBrentq true none [[3]] [[2]] [[4]] [[1]]
      ≠ runEstimator oraclesFail Method.rootBrentq false none [[3]] [[2]] [[4]] [[1]] := by
  have h1 := run_brentq_parallel_ok oraclesFail [[3]] [[2]] [[4]] [[1]] (by decide) (by decide)
  have h2 := run_serial_broadcast_error oraclesFail [[3]] [[2]] [[4]] [[1]] (by decide)
    (by decide)
  refine ⟨h1, h2, ?_⟩
  rw [h1, h2]
  simp

theorem brentq_fail_record (ext : Oracles) (C B M : List ℚ) (c0 : ℚ)
    (hC : C ≠ []) (hB : B ≠ []) (hM : M ≠ []) :
    (fitRecordOf ext C B M c0 Val.nan MAX_NITER).ts = Val.nan ∧
    (fitRecordOf ext C B M c0 Val.nan MAX_NITER).flux = Val.nan ∧
    (fitRecordOf ext C B M c0 Val.nan MAX_NITER).flux_err = Val.nan ∧
    (fitRecordOf ext C B M c0 Val.nan MAX_NITER).flux_err_profile = Val.nan ∧
    (fitRecordOf ext C B M c0 Val.nan MAX_NITER).niter = MAX_NITER := by
  have hc1 := f_cash_nan ext.cashC C B M hC hB hM
  refine ⟨?_, ?_, ?_, ?_, rfl⟩
  · simp [fitRecordOf, hc1]
  · simp [fitRecordOf]
  · simp [fitRecordOf, computeAmplitudeErr_nan ext.sqrtQ C B M hC hB hM]
  · simp [fitRecordOf, computeAmplitudeErrProfile_nan]

/-- C6: when the external root finder fails to bracket or to converge (the
oracle returns `none`), the pixel's amplitude is recorded as NaN with the
iteration cap, and the derived ts, flux, flux_err and flux_err_profile are
all NaN — for the bracketed Brent solver (first conjunct) and the Newton
solver (second conjunct), over any nonempty slice and any oracle behaviour
elsewhere.  Third conjunct: the (parallel) run never aborts — it returns an
output image set holding, at every candidate pixel, exactly that pixel's
record, so all other pixels remain valid. -/
theorem root_failure_nan_and_run_completes (ext : Oracles) (position : Nat × Nat)
    (counts exposure background c0Image kernel : Image) (flux : Option Image)
    (f : Image) (C B M : List ℚ) (H W : Nat)
    (hC : C = extractArray counts kernel.length position)
    (hB : B = extractArray background kernel.length position)
    (hM : M = modelSlice exposure kernel position) :
    (ext.brentq C B M (amplitudeBounds C B M).1 (amplitudeBounds C B M).2.1 = none →
      0 < C.sum → B ≠ [] → M ≠ [] →
      ∃ r : FitRecord,
        tsValue ext position counts exposure background c0Image kernel flux
            Method.rootBrentq none = Except.ok (TsReturn.dict r) ∧
        r.ts = Val.nan ∧ r.flux = Val.nan ∧ r.flux_err = Val.nan ∧
        r.flux_err_profile = Val.nan ∧ r.niter = MAX_NITER) ∧
    (ext.newton C B M (get2 f position) = none →
      C ≠ [] → B ≠ [] → M ≠ [] →
      ∃ r : FitRecord,
        tsValue ext position counts exposure background c0Image kernel (some f)
            Method.rootNewton none = Except.ok (TsReturn.dict r) ∧
        r.ts = Val.nan ∧ r.flux = Val.nan ∧ r.flux_err = Val.nan ∧
        r.flux_err_profile = Val.nan ∧ r.niter = MAX_NITER) ∧
    (Rect counts H W → Rect background H W → Rect exposure H W →
      runPositions background exposure kernel ≠ [] →
      ∃ out, runEstimator ext Method.rootBrentq true none counts background exposure kernel
          = Except.ok out ∧
        ∀ p ∈ runPositions background exposure kernel,
          lookupV out.ts p = (brentqRecord ext p counts (exposure2Of exposure background)
            background (c0ImageOf ext.cashC counts background) kernel).ts ∧
          lookupV out.flux p = (brentqRecord ext p counts (exposure2Of exposure background)
            background (c0ImageOf ext.cashC counts background) kernel).flux ∧
          lookupV out.flux_err p = (brentqRecord ext p counts
            (exposure2Of exposure background) background
            (c0ImageOf ext.cashC counts background) kernel).flux_err ∧
          lookupV out.flux_err_profile p = (brentqRecord ext p counts
            (exposure2Of exposure background) background
            (c0ImageOf ext.cashC counts background) kernel).flux_err_profile ∧
          lookupV out.niter p = Val.fin (brentqRecord ext p counts
            (exposure2Of exposure background) background
            (c0ImageOf ext.cashC counts background) kernel).niter) := by
  subst hC hB hM
  refine ⟨?_, ?_, ?_⟩
  · intro hfail hsum hBne hMne
    have hCne : extractArray counts kernel.length position ≠ [] := by
      intro hnil
      rw [hnil] at hsum
      simp at hsum
    have hcond : ¬ ¬ (extractArray counts kernel.length position).sum > 0 :=
      fun hcon => hcon hsum
    have hamp : rootAmplitudeBrentq ext (extractArray counts kernel.length position)
        (extractArray background kernel.length position)
        (modelSlice exposure kernel position) = (Val.nan, MAX_NITER) := by
      simp only [rootAmplitudeBrentq, if_neg hcond, hfail]
    have hfields := brentq_fail_record ext (extractArray counts kernel.length position)
      (extractArray background kernel.length position)
      (modelSlice exposure kernel position)
      ((extractArray c0Image kernel.length position).sum) hCne hBne hMne
    refine ⟨fitRecordOf ext (extractArray counts kernel.length position)
      (extractArray background kernel.length position)
      (modelSlice exposure kernel position)
      ((extractArray c0Image kernel.length position).sum) Val.nan MAX_NITER, ?_,
      hfields.1, hfields.2.1, hfields.2.2.1, hfields.2.2.2.1, hfields.2.2.2.2⟩
    rw [tsValue_none]
    exact tsValueFit_ok _ _ _ _ _ _ _ _ _ _ (congrArg Except.ok hamp)
  · intro hfail hCne hBne hMne
    have hamp : rootAmplitude ext (extractArray counts kernel.length position)
        (extractArray background kernel.length position)
        (modelSlice exposure kernel position) (get2 f position)
        = (Val.nan, MAX_NITER) := by
      unfold rootAmplitude
      rw [hfail]
    have hfields := brentq_fail_record ext (extractArray counts kernel.length position)
      (extractArray background kernel.length position)
      (modelSlice exposure kernel position)
      ((extractArray c0Image kernel.length position).sum) hCne hBne hMne
    refine ⟨fitRecordOf ext (extractArray counts kernel.length position)
      (extractArray background kernel.length position)
      (modelSlice exposure kernel position)
      ((extractArray c0Image kernel.length position).sum) Val.nan MAX_NITER, ?_,
      hfields.1, hfields.2.1, hfields.2.2.1, hfields.2.2.2.1, hfields.2.2.2.2⟩
    rw [tsValue_none]
    exact tsValueFit_ok _ _ _ _ _ _ _ _ _ _ (congrArg Except.ok hamp)
  · intro hRc hRb hRe hpos
    have hsh : counts.map List.length = background.map List.length ∧
        counts.map List.length = exposure.map List.length := by
      rw [rect_map_length hRc, rect_map_length hRb, rect_map_length hRe]
      exact ⟨rfl, rfl⟩
    refine ⟨brentqRunOutput ext counts background exposure kernel,
      run_brentq_parallel_ok ext counts background exposure kernel hsh hpos, ?_⟩
    intro p hp
    have hnanRect := nanImageOf_rect hRc
    have hbounds : ∀ q ∈ runPositions background exposure kernel,
        q.1 < (nanImageOf counts).length ∧
        q.2 < ((nanImageOf counts).getD q.1 []).length := by
      intro q hq
      obtain ⟨_, hq2, _, hq4, _⟩ := (mem_getPositions_exposure exposure background
        kernel.length ((kernel.headD []).length) H W hRe hRb q).mp hq
      have hq1H : q.1 < H := lt_of_lt_of_le hq2 (Nat.sub_le _ _)
      constructor
      · rw [hnanRect.1]
        exact hq1H
      · rw [Rect.getD_length hnanRect hq1H]
        exact lt_of_lt_of_le hq4 (Nat.sub_le _ _)
    have hnd := getPositions_nodup (maskOf (exposure2Of exposure background))
      kernel.length ((kernel.headD []).length)
    simp only [brentqRunOutput, brentqRunRecords]
    rw [List.map_map, List.map_map, List.map_map, List.map_map, List.map_map]
    exact ⟨lookup_writeAll_map _ _ _ hnd hbounds p hp,
      lookup_writeAll_map _ _ _ hnd hbounds p hp,
      lookup_writeAll_map _ _ _ hnd hbounds p hp,
      lookup_writeAll_map _ _ _ hnd hbounds p hp,
      lookup_writeAll_map _ _ _ hnd hbounds p hp⟩

/-- Witness for `root_failure_nan_and_run_completes` on a concrete 1-pixel
image with root finders that always fail. -/
theorem root_failure_nan_witness :
    (∃ r : FitRecord,
      tsValue oraclesFail (0, 0) [[3]] [[4]] [[2]] [[5]] [[1]] none
          Method.rootBrentq none = Except.ok (TsReturn.dict r) ∧
      r.ts = Val.nan ∧ r.flux = Val.nan ∧ r.flux_err = Val.nan ∧
      r.flux_err_profile = Val.nan ∧ r.niter = MAX_NITER) ∧
    (∃ out, runEstimator oraclesFail Method.rootBrentq true none [[3]] [[2]] [[4]] [[1]]
      = Except.ok out) := by
  have h := root_failure_nan_and_run_completes oraclesFail (0, 0) [[3]] [[4]] [[2]] [[5]]
    [[1]] none [[7]] (extractArray [[3]] 1 (0, 0)) (extractArray [[2]] 1 (0, 0))
    (modelSlice [[4]] [[1]] (0, 0)) 1 1 rfl rfl rfl
  have h2 := root_failure_nan_and_run_completes oraclesFail (0, 0) [[3]] [[4]] [[2]] [[5]]
    [[1]] none [[7]] (extractArray [[3]] 1 (0, 0)) (extractArray [[2]] 1 (0, 0))
    (modelSlice [[4]] [[1]] (0, 0)) 1 1 rfl rfl rfl
  refine ⟨h.1 rfl (by norm_num [extractArray]) (by decide) (by decide), ?_⟩
  obtain ⟨out, hout, _⟩ := h2.2.2 (by decide) (by decide) (by decide) (by decide)
  exact ⟨out, hout⟩

theorem foldl_max_le_init : ∀ (xs : List ℚ) (acc : ℚ), acc ≤ xs.foldl max acc := by
  intro xs
  induction xs with
  | nil => intro acc; exact le_refl _
  | cons x t ih => intro acc; exact le_trans (le_max_left acc x) (ih (max acc x))

theorem mem_le_foldl_max : ∀ (xs : List ℚ) (acc a : ℚ), a ∈ xs → a ≤ xs.foldl max acc := by
  intro xs
  induction xs with
  | nil => intro _ a ha; simp at ha
  | cons x t ih =>
    intro acc a ha
    rcases List.mem_cons.mp ha with rfl | ha
    · exact le_trans (le_max_right acc a) (foldl_max_le_init t _)
    · exact ih _ a ha

theorem foldl_max_mem : ∀ (xs : List ℚ) (acc : ℚ),
    xs.foldl max acc = acc ∨ xs.foldl max acc ∈ xs := by
  intro xs
  induction xs with
  | nil => intro _; left; rfl
  | cons x t ih =>
    intro acc
    rcases ih (max acc x) with h | h
    · rcases max_cases acc x with ⟨hm, _⟩ | ⟨hm, _⟩
      · left
        rw [List.foldl_cons, h, hm]
      · right
        rw [List.foldl_cons, h, hm]
        exact List.mem_cons_self x t
    · right
      rw [List.foldl_cons]
      exact List.mem_cons_of_mem _ h

theorem maxList_mem (l : List ℚ) (h : l ≠ []) : maxList l ∈ l := by
  rcases l with _ | ⟨x, xs⟩
  · exact absurd rfl h
  · show xs.foldl max x ∈ x :: xs
    rcases foldl_max_mem xs x with h' | h'
    · rw [h']
      exact List.mem_cons_self x xs
    · exact List.mem_cons_of_mem _ h'

theorem le_maxList (l : List ℚ) (a : ℚ) (ha : a ∈ l) : a ≤ maxList l := by
  rcases l with _ | ⟨x, xs⟩
  · simp at ha
  · show a ≤ xs.foldl max x
    rcases List.mem_cons.mp ha with rfl | ha
    · exact foldl_max_le_init xs a
    · exact mem_le_foldl_max xs x a ha

/-- The selection loop of `compute_maximum_ts_image` keeps the values of the
last scale whose TS equals the pixel maximum (every equality match overwrites
the running arrays in scale order). -/
theorem selectAtPixel_eq_find (rs : List ScaleResult) (m : ℚ) (p : Nat × Nat) :
    selectAtPixel rs m p
      = match rs.reverse.find? (fun r => decide (get2 r.ts p = m)) with
        | some r => (r.scale, get2 r.niter p, get2 r.amplitude p)
        | none => (0, 0, 0) := by
  unfold selectAtPixel
  induction rs using List.reverseRecOn with
  | nil => rfl
  | append_singleton l r ih =>
    rw [List.foldl_append, List.reverse_append, List.reverse_singleton,
      List.singleton_append, List.foldl_cons, List.foldl_nil]
    by_cases hr : get2 r.ts p = m
    · rw [if_pos hr, List.find?_cons_of_pos _ (by simp [hr])]
    · rw [if_neg hr, List.find?_cons_of_neg _ (by simp [hr]), ih]

/-- C8: the composite of `compute_maximum_ts_image` holds, at each pixel, the
maximum TS over the scale results (it bounds every scale's TS and is attained
by one of them), and its scale/niter/amplitude triple comes from the LAST
scale in the input list attaining that maximum (the first match of `find?` on
the reversed list), which indeed attains it. -/
theorem maximum_ts_image_spec (rs : List ScaleResult) (p : Nat × Nat) (h : rs ≠ []) :
    (computeMaximumTsImage rs p).1 = maxList (rs.map fun r => get2 r.ts p) ∧
    (∀ r ∈ rs, get2 r.ts p ≤ (computeMaximumTsImage rs p).1) ∧
    (∃ r ∈ rs, get2 r.ts p = (computeMaximumTsImage rs p).1) ∧
    (∃ rlast,
      rs.reverse.find? (fun r => decide (get2 r.ts p = (computeMaximumTsImage rs p).1))
        = some rlast ∧
      get2 rlast.ts p = (computeMaximumTsImage rs p).1 ∧
      (computeMaximumTsImage rs p).2
        = (rlast.scale, get2 rlast.niter p, get2 rlast.amplitude p)) := by
  have hm1 : (computeMaximumTsImage rs p).1 = maxList (rs.map fun r => get2 r.ts p) := rfl
  have hmapne : rs.map (fun r => get2 r.ts p) ≠ [] := by
    intro hc
    exact h (List.map_eq_nil_iff.mp hc)
  have hattain : ∃ r ∈ rs, get2 r.ts p = (computeMaximumTsImage rs p).1 := by
    rw [hm1]
    obtain ⟨r, hr, hre⟩ := List.mem_map.mp (maxList_mem _ hmapne)
    exact ⟨r, hr, hre⟩
  refine ⟨hm1, ?_, hattain, ?_⟩
  · intro r hr
    rw [hm1]
    exact le_maxList _ _ (List.mem_map_of_mem _ hr)
  · obtain ⟨r, hr, hre⟩ := hattain
    have hsome : (rs.reverse.find? fun r =>
        decide (get2 r.ts p = (computeMaximumTsImage rs p).1)).isSome := by
      rw [List.find?_isSome]
      exact ⟨r, List.mem_reverse.mpr hr, by simp [hre]⟩
    obtain ⟨rlast, hfind⟩ := Option.isSome_iff_exists.mp hsome
    refine ⟨rlast, hfind, ?_, ?_⟩
    · have := List.find?_some hfind
      simpa using this
    · have hsel : (computeMaximumTsImage rs p).2
          = selectAtPixel rs (maxList (rs.map fun r => get2 r.ts p)) p := rfl
      rw [hsel, selectAtPixel_eq_find, ← hm1, hfind]

/-- Witness for `maximum_ts_image_spec`: two scales tying at TS 5 — the
composite records the maximum 5 and the second (last) scale's values. -/
theorem maximum_ts_image_witness :
    (computeMaximumTsImage
        [⟨1, [[5]], [[2]], [[7]]⟩, ⟨2, [[5]], [[3]], [[8]]⟩] (0, 0)).1 = 5 ∧
    (computeMaximumTsImage
        [⟨1, [[5]], [[2]], [[7]]⟩, ⟨2, [[5]], [[3]], [[8]]⟩] (0, 0)).2 = (2, 3, 8) := by
  have h := maximum_ts_image_spec
    [⟨1, [[5]], [[2]], [[7]]⟩, ⟨2, [[5]], [[3]], [[8]]⟩] (0, 0) (by decide)
  have hm : (computeMaximumTsImage
      [⟨1, [[5]], [[2]], [[7]]⟩, ⟨2, [[5]], [[3]], [[8]]⟩] (0, 0)).1 = 5 := by
    rw [h.1]
    norm_num [maxList, get2]
  refine ⟨hm, ?_⟩
  obtain ⟨rlast, hfind, _, hsel⟩ := h.2.2.2
  rw [hm] at hfind
  have hr : rlast = ⟨2, [[5]], [[3]], [[8]]⟩ := by
    have hrev : ([⟨1, [[5]], [[2]], [[7]]⟩, ⟨2, [[5]], [[3]], [[8]]⟩] :
        List ScaleResult).reverse
        = [⟨2, [[5]], [[3]], [[8]]⟩, ⟨1, [[5]], [[2]], [[7]]⟩] := rfl
    rw [hrev, List.find?_cons_of_pos _ (by norm_num [get2])] at hfind
    exact (Option.some_inj.mp hfind).symm
  rw [hsel, hr]
  norm_num [get2]

theorem Heap.get_set_self (h : Heap) (n : Nat) (v : Image) (hn : n < h.arr.length) :
    (h.set n v).get n = v := by
  unfold Heap.get Heap.set
  rw [List.getD_eq_getElem?_getD, List.getElem?_set_self hn]
  rfl

theorem Heap.get_set_ne (h : Heap) (n m : Nat) (v : Image) (hne : m ≠ n) :
    (h.set n v).get m = h.get m := by
  unfold Heap.get Heap.set
  rw [List.getD_eq_getElem?_getD, List.getElem?_set_ne (Ne.symm hne),
    ← List.getD_eq_getElem?_getD]

theorem Heap.get_alloc_lt (h : Heap) (v : Image) (n : Nat) (hn : n < h.arr.length) :
    (h.alloc v).1.get n = h.get n := by
  unfold Heap.get Heap.alloc
  rw [List.getD_eq_getElem?_getD, List.getElem?_append, if_pos hn,
    ← List.getD_eq_getElem?_getD]

/-- The run's array effects never touch an existing array: the astype copies
are fresh allocations and the anomaly zeroing writes only the exposure copy. -/
theorem runHeapEffect_preserves (h : Heap) (hc hb he n : Nat)
    (hn : n < h.arr.length) : (runHeapEffect h hc hb he).get n = h.get n := by
  unfold runHeapEffect
  rw [Heap.get_set_ne _ _ _ _ (by simp [Heap.alloc]; omega)]
  rw [Heap.get_alloc_lt _ _ _ (by simp [Heap.alloc]; omega),
    Heap.get_alloc_lt _ _ _ (by simp [Heap.alloc]; omega),
    Heap.get_alloc_lt _ _ _ hn]

/-- With downsampling factor 1 the working images alias the caller arrays, so
the residual-mode update writes the caller's own background array. -/
theorem multiscaleStep_residual_aliased (pad ds : Image → Image) (h : Heap)
    (hc hb he hm : Nat) (hbLt : hb < h.arr.length) :
    (multiscaleStep pad ds h hc hb he hm 1 true).1.get hb
      = add2D (h.get hb) (h.get hm) := by
  unfold multiscaleStep
  rw [if_pos rfl]
  exact Heap.get_set_self _ _ _ hbLt

/-- With a downsampling factor other than 1 every working image is freshly
allocated, so the caller's arrays are untouched (in residual mode the update
writes the fresh background copy). -/
theorem multiscaleStep_downsampled_preserves (pad ds : Image → Image) (h : Heap)
    (hc hb he hm factor : Nat) (residual : Bool) (hf : factor ≠ 1)
    (n : Nat) (hn : n < h.arr.length) :
    (multiscaleStep pad ds h hc hb he hm factor residual).1.get n = h.get n := by
  unfold multiscaleStep
  rw [if_neg hf]
  rcases residual with _ | _
  · simp only [Bool.cond_false]
    rw [Heap.get_alloc_lt _ _ _ (by simp [Heap.alloc]; omega),
      Heap.get_alloc_lt _ _ _ (by simp [Heap.alloc]; omega),
      Heap.get_alloc_lt _ _ _ (by simp [Heap.alloc]; omega),
      Heap.get_alloc_lt _ _ _ hn]
  · simp only [Bool.cond_true]
    rw [Heap.get_set_ne _ _ _ _ (by simp [Heap.alloc]; omega)]
    rw [Heap.get_alloc_lt _ _ _ (by simp [Heap.alloc]; omega),
      Heap.get_alloc_lt _ _ _ (by simp [Heap.alloc]; omega),
      Heap.get_alloc_lt _ _ _ (by simp [Heap.alloc]; omega),
      Heap.get_alloc_lt _ _ _ hn]

/-- C9 counterexample: a multiscale residual run on the default scale list
`[0]` (auto factor 1, aliased images) mutates the caller's background array
in place — `images2['background'].data += images2['model'].data` writes
through the alias before the run aborts, so the caller's array is changed. -/
theorem multiscale_residual_mutates_background :
    (computeTsImageMultiscale id id ⟨[[[1]], [[2]], [[3]], [[4]]]⟩ 0 1 2 3 1 [0]
        none true).1.get 1
      ≠ (⟨[[[1]], [[2]], [[3]], [[4]]]⟩ : Heap).get 1 := by
  have hval : (computeTsImageMultiscale id id ⟨[[[1]], [[2]], [[3]], [[4]]]⟩ 0 1 2 3 1 [0]
      none true).1.get 1 = [[(6 : ℚ)]] := by
    have hstep : computeTsImageMultiscale id id ⟨[[[1]], [[2]], [[3]], [[4]]]⟩ 0 1 2 3 1 [0]
        none true
        = multiscaleStep id id ⟨[[[1]], [[2]], [[3]], [[4]]]⟩ 0 1 2 3 1 true := by
      unfold computeTsImageMultiscale downsampleFactorAuto
      norm_num
    rw [hstep]
    unfold multiscaleStep
    rw [if_pos rfl]
    show (Heap.set _ 1 _).get 1 = [[(6 : ℚ)]]
    rw [Heap.get_set_self _ _ _ (by simp)]
    norm_num [Heap.get, add2D]
  rw [hval]
  intro hcontra
  have h6 : (6 : ℚ) = 2 := by
    injection hcontra with hrow _
    injection hrow with hv _
  norm_num at h6

/-- C9 (amended): `TSImageEstimator.run` leaves the caller's counts,
background and exposure arrays unchanged — `astype(float)` copies them and
the anomaly zeroing writes only the exposure copy (first three conjuncts).
The multiscale driver, however, aliases the caller images when the
downsampling factor is 1, so residual mode adds the model image into the
caller's background array in place (fourth conjunct); with any other factor
it works on freshly allocated padded/downsampled arrays and every caller
array survives unchanged (fifth conjunct). -/
theorem caller_arrays_mutation_spec (pad ds : Image → Image) (h : Heap)
    (hc hb he hm factor : Nat) (residual : Bool) :
    (hc < h.arr.length → (runHeapEffect h hc hb he).get hc = h.get hc) ∧
    (hb < h.arr.length → (runHeapEffect h hc hb he).get hb = h.get hb) ∧
    (he < h.arr.length → (runHeapEffect h hc hb he).get he = h.get he) ∧
    (hb < h.arr.length →
      (multiscaleStep pad ds h hc hb he hm 1 true).1.get hb
        = add2D (h.get hb) (h.get hm)) ∧
    (factor ≠ 1 → ∀ n, n < h.arr.length →
      (multiscaleStep pad ds h hc hb he hm factor residual).1.get n = h.get n) :=
  ⟨fun hlt => runHeapEffect_preserves h hc hb he hc hlt,
   fun hlt => runHeapEffect_preserves h hc hb he hb hlt,
   fun hlt => runHeapEffect_preserves h hc hb he he hlt,
   fun hlt => multiscaleStep_residual_aliased pad ds h hc hb he hm hlt,
   fun hf n hn => multiscaleStep_downsampled_preserves pad ds h hc hb he hm factor
     residual hf n hn⟩

/-- Witness for `caller_arrays_mutation_spec` on a 4-array store. -/
theorem caller_arrays_mutation_witness :
    (runHeapEffect ⟨[[[1]], [[2]], [[3]], [[4]]]⟩ 0 1 2).get 1
      = (⟨[[[1]], [[2]], [[3]], [[4]]]⟩ : Heap).get 1 ∧
    (multiscaleStep id id ⟨[[[1]], [[2]], [[3]], [[4]]]⟩ 0 1 2 3 1 true).1.get 1
      = add2D ((⟨[[[1]], [[2]], [[3]], [[4]]]⟩ : Heap).get 1)
          ((⟨[[[1]], [[2]], [[3]], [[4]]]⟩ : Heap).get 3) := by
  have h := caller_arrays_mutation_spec id id ⟨[[[1]], [[2]], [[3]], [[4]]]⟩ 0 1 2 3 2 true
  exact ⟨h.2.1 (by simp), h.2.2.2.1 (by simp)⟩
